import Mathlib

/-!
# imgproxy configuration bootstrap (`config.go`)

A shallow embedding of the configuration loader of imgproxy: the four
environment/file readers (`intEnvConfig`, `strEnvConfig`, `hexEnvConfig`,
`hexFileConfig`), the `config` record with its package-level defaults, and
`init`, which loads every field and validates it, ending the process with
`log.Fatal*` on the first violated requirement.

Modelling conventions

* A Go `string` or `[]byte` is the list of its bytes (`Bytes`, bytes as `Nat`).
* A Go `int` is an `Int`; the platform is 64-bit, and the two multiplications
  of the file wrap explicitly through `wrapInt`.
* The process environment is a map from variable names to optional values;
  `os.Getenv` returns the empty string for a variable that is not set.
* The file system is a map from paths to the outcome of opening and reading.
* `log.Fatal*` ends the process: a function that may call it returns
  `Except Fatal _`, and the error names the call that was reached.
-/

namespace Imgproxy

/-! ## Strings, bytes and machine integers -/

/-- A Go string or byte slice, as the list of its bytes. -/
abbrev Bytes := List Nat

/-- The bytes of an ASCII string literal of the source. -/
def goStr (s : String) : Bytes := s.toList.map Char.toNat

/-- Largest value of a 64-bit Go `int`. -/
def maxInt : Int := 9223372036854775807

/-- Smallest value of a 64-bit Go `int`. -/
def minInt : Int := -9223372036854775808

/-- Two's-complement wrap-around of an exact integer into the 64-bit `int` range. -/
def wrapInt (x : Int) : Int :=
  (x + 9223372036854775808) % 18446744073709551616 - 9223372036854775808

/-! ## The process environment and the file system -/

/-- The process environment: the value of each variable that is set. -/
abbrev Env := String → Option Bytes

/-- Go `os.Getenv`: the value of the variable, empty when it is not set. -/
def Getenv (env : Env) (name : String) : Bytes := (env name).getD []

/-- Outcome of `os.Open` followed by `ioutil.ReadAll` on a path. -/
inductive FileRead where
  | openError : FileRead
  | readError : FileRead
  | content : Bytes → FileRead
deriving DecidableEq, Repr

/-- The file system as seen by the loader. -/
abbrev FS := Bytes → FileRead

/-! ## Standard-library functions used by the loader -/

/-- Value of a decimal digit byte. -/
def digitVal (c : Nat) : Option Nat :=
  if 48 ≤ c ∧ c ≤ 57 then some (c - 48) else none

/-- The digit loop of `strconv.ParseUint` in base 10: every byte must be a
decimal digit. The accumulator is exact; the range is checked by the caller. -/
def parseDigits : Bytes → Nat → Option Nat
  | [], acc => some acc
  | c :: cs, acc =>
    match digitVal c with
    | some d => parseDigits cs (acc * 10 + d)
    | none => none

/-- The unsigned part of `strconv.ParseInt`: at least one digit, digits only. -/
def parseUnsigned (s : Bytes) : Option Nat :=
  match s with
  | [] => none
  | _ :: _ => parseDigits s 0

/-- Go `strconv.Atoi` on a 64-bit platform: an optional sign (`+` or `-`),
then one or more decimal digits, the value within the `int` range; `none`
stands for a non-nil error (syntax or range). -/
def Atoi (s : Bytes) : Option Int :=
  match s with
  | [] => none
  | c :: rest =>
    if c = 45 then
      match parseUnsigned rest with
      | some n => if n ≤ 9223372036854775808 then some (-(n : Int)) else none
      | none => none
    else if c = 43 then
      match parseUnsigned rest with
      | some n => if n < 9223372036854775808 then some (n : Int) else none
      | none => none
    else
      match parseUnsigned (c :: rest) with
      | some n => if n < 9223372036854775808 then some (n : Int) else none
      | none => none

/-- Go `encoding/hex.fromHexChar`: the value of a hexadecimal digit byte. -/
def fromHexChar (c : Nat) : Option Nat :=
  if 48 ≤ c ∧ c ≤ 57 then some (c - 48)
  else if 97 ≤ c ∧ c ≤ 102 then some (c - 97 + 10)
  else if 65 ≤ c ∧ c ≤ 70 then some (c - 65 + 10)
  else none

/-- Go `encoding/hex.Decode` (and `DecodeString`): pairs of hexadecimal digits
to bytes; `none` stands for a non-nil error (odd length or a byte that is not a
hexadecimal digit). The result is the bytes written, so that the count `n`
that Go returns on success is its length. -/
def hexDecode : Bytes → Option Bytes
  | [] => some []
  | [_] => none
  | p :: q :: rest =>
    match fromHexChar p, fromHexChar q with
    | some a, some b =>
      match hexDecode rest with
      | some r => some ((a * 16 + b) :: r)
      | none => none
    | _, _ => none

/-- Go `encoding/hex.DecodedLen`. -/
def DecodedLen (x : Nat) : Nat := x / 2

/-- The `hextable` of `encoding/hex`: the lower-case digit of a value below 16. -/
def hexDigit (v : Nat) : Nat := if v < 10 then 48 + v else 97 + (v - 10)

/-- Go `encoding/hex.EncodeToString`: two lower-case digits per byte. -/
def EncodeToString : Bytes → Bytes
  | [] => []
  | v :: vs => hexDigit (v / 16) :: hexDigit (v % 16) :: EncodeToString vs

/-- ASCII lower-casing of one byte. -/
def toLowerByte (c : Nat) : Nat := if 65 ≤ c ∧ c ≤ 90 then c + 32 else c

/-- The ASCII white space of `unicode.IsSpace`: tab, LF, VT, FF, CR, space. -/
def asciiSpace (c : Nat) : Bool :=
  c = 9 || c = 10 || c = 11 || c = 12 || c = 13 || c = 32

/-- One white-space rune at the head of a byte string, in UTF-8: the rest of
the string after it, or `none` when the string does not start with one. The
runes are those of `unicode.IsSpace`: the ASCII ones, U+0085, U+00A0, U+1680,
U+2000 to U+200A, U+2028, U+2029, U+202F, U+205F and U+3000. -/
def dropSpaceRune : Bytes → Option Bytes
  | [] => none
  | c :: rest =>
    if asciiSpace c then some rest
    else if c = 0xC2 then
      match rest with
      | d :: r => if d = 0x85 ∨ d = 0xA0 then some r else none
      | [] => none
    else if c = 0xE1 then
      match rest with
      | d :: e :: r => if d = 0x9A ∧ e = 0x80 then some r else none
      | _ => none
    else if c = 0xE2 then
      match rest with
      | d :: e :: r =>
        if d = 0x80 ∧ ((0x80 ≤ e ∧ e ≤ 0x8A) ∨ e = 0xA8 ∨ e = 0xA9 ∨ e = 0xAF) then some r
        else if d = 0x81 ∧ e = 0x9F then some r
        else none
      | _ => none
    else if c = 0xE3 then
      match rest with
      | d :: e :: r => if d = 0x80 ∧ e = 0x80 then some r else none
      | _ => none
    else none

/-- One white-space rune at the end of a byte string, given the string
reversed: the (reversed) rest before it, or `none`. -/
def dropSpaceRuneRev : Bytes → Option Bytes
  | [] => none
  | c :: rest =>
    if asciiSpace c then some rest
    else
      match rest with
      | d :: r =>
        if d = 0xC2 ∧ (c = 0x85 ∨ c = 0xA0) then some r
        else
          match r with
          | e :: r2 =>
            if e = 0xE1 ∧ d = 0x9A ∧ c = 0x80 then some r2
            else if e = 0xE2 ∧ d = 0x80 ∧
                ((0x80 ≤ c ∧ c ≤ 0x8A) ∨ c = 0xA8 ∨ c = 0xA9 ∨ c = 0xAF) then some r2
            else if e = 0xE2 ∧ d = 0x81 ∧ c = 0x9F then some r2
            else if e = 0xE3 ∧ d = 0x80 ∧ c = 0x80 then some r2
            else none
          | [] => none
      | [] => none

/-- Repeated removal of leading white-space runes, at most `fuel` of them. -/
def trimLeftFuel : Nat → Bytes → Bytes
  | 0, s => s
  | fuel + 1, s =>
    match dropSpaceRune s with
    | some r => trimLeftFuel fuel r
    | none => s

/-- Repeated removal of trailing white-space runes (on the reversed string). -/
def trimRightFuel : Nat → Bytes → Bytes
  | 0, s => s
  | fuel + 1, s =>
    match dropSpaceRuneRev s with
    | some r => trimRightFuel fuel r
    | none => s

/-- Go `bytes.TrimSpace`: the string without its leading and trailing
white-space runes. Every removed rune has at least one byte, so the length of
the string is fuel enough on both sides. -/
def TrimSpace (s : Bytes) : Bytes :=
  let l := trimLeftFuel s.length s
  (trimRightFuel l.length l.reverse).reverse

/-! ## Fatal errors -/

/-- The `log.Fatal*` call that ended the process, with the argument it prints. -/
inductive Fatal where
  /-- Message `"%s expected to be hex-encoded string"` (`hexEnvConfig`). -/
  | envNotHex : String → Fatal
  /-- Message `"Can't open file %s"` (`hexFileConfig`). -/
  | cantOpenFile : Bytes → Fatal
  /-- Call `log.Fatalln(err)` after `ioutil.ReadAll` (`hexFileConfig`). -/
  | readFailed : Fatal
  /-- Message `"%s expected to contain hex-encoded string"` (`hexFileConfig`). -/
  | fileNotHex : Bytes → Fatal
  /-- Message `"Key is not defined"`. -/
  | keyNotDefined : Fatal
  /-- Message `"Salt is not defined"`. -/
  | saltNotDefined : Fatal
  /-- Message `"Bind address is not defined"`. -/
  | bindNotDefined : Fatal
  /-- Message `"Read timeout should be greater than 0, now - %d"`. -/
  | readTimeout : Int → Fatal
  /-- Message `"Write timeout should be greater than 0, now - %d"`. -/
  | writeTimeout : Int → Fatal
  /-- Message `"Download timeout should be greater than 0, now - %d"`. -/
  | downloadTimeout : Int → Fatal
  /-- Message `"Concurrency should be greater than 0, now - %d"`. -/
  | concurrency : Int → Fatal
  /-- Message `"TTL should be greater than 0, now - %d"`. -/
  | ttl : Int → Fatal
  /-- Message `"Max src dimension should be greater than 0, now - %d"`. -/
  | maxSrcDimension : Int → Fatal
  /-- Message `"Quality should be greater than 0, now - %d"`. -/
  | qualityLow : Int → Fatal
  /-- Message `"Quality can't be greater than 100, now - %d"`. -/
  | qualityHigh : Int → Fatal
  /-- Message `"GZip compression should be greater than or quual to 0, now - %d"`. -/
  | gzipLow : Int → Fatal
  /-- Message `"GZip compression can't be greater than 9, now - %d"`. -/
  | gzipHigh : Int → Fatal
deriving DecidableEq, Repr

deriving instance DecidableEq for Except

/-! ## The readers -/

/-- Function `intEnvConfig`: the variable's value when `strconv.Atoi` accepts it,
otherwise the target as it was. -/
def intEnvConfig (i : Int) (env : Env) (name : String) : Int :=
  match Atoi (Getenv env name) with
  | some v => v
  | none => i

/-- Function `strEnvConfig`: the variable's value when it is not empty, otherwise the
target as it was. -/
def strEnvConfig (s : Bytes) (env : Env) (name : String) : Bytes :=
  if (Getenv env name).length > 0 then Getenv env name else s

/-- Function `hexEnvConfig`: when the variable is not empty, its hexadecimal decoding,
fatal when it does not decode; otherwise the target as it was. -/
def hexEnvConfig (b : Bytes) (env : Env) (name : String) : Except Fatal Bytes :=
  if (Getenv env name).length > 0 then
    match hexDecode (Getenv env name) with
    | some d => .ok d
    | none => .error (.envNotHex name)
  else .ok b

/-- Function `hexFileConfig`: nothing for an empty path; otherwise the hexadecimal
decoding of the file's content with surrounding white space trimmed, fatal when
the file cannot be opened or read or does not decode. The destination buffer
`dst` has `hex.DecodedLen` bytes, zero where nothing was written, and the `n`
decoded ones are kept. -/
def hexFileConfig (b : Bytes) (fs : FS) (filepath : Bytes) : Except Fatal Bytes :=
  if filepath.length = 0 then .ok b
  else
    match fs filepath with
    | .openError => .error (.cantOpenFile filepath)
    | .readError => .error .readFailed
    | .content src =>
      let src := TrimSpace src
      match hexDecode src with
      | some written =>
        let dst := written ++ List.replicate (DecodedLen src.length - written.length) 0
        .ok (dst.take written.length)
      | none => .error (.fileNotHex filepath)

/-! ## The configuration -/

/-- The `config` struct. -/
structure config where
  Bind : Bytes
  ReadTimeout : Int
  WriteTimeout : Int
  DownloadTimeout : Int
  Concurrency : Int
  MaxClients : Int
  TTL : Int
  MaxSrcDimension : Int
  Quality : Int
  GZipCompression : Int
  Key : Bytes
  Salt : Bytes
  Secret : Bytes
deriving DecidableEq, Repr

/-- The package-level `conf` with its literal defaults; the fields that the
literal leaves out have Go's zero value. `numCPU` is `runtime.NumCPU()`. -/
def conf (numCPU : Int) : config :=
  { Bind := goStr ":8080"
    ReadTimeout := 10
    WriteTimeout := 10
    DownloadTimeout := 5
    Concurrency := wrapInt (numCPU * 2)
    MaxClients := 0
    TTL := 3600
    MaxSrcDimension := 4096
    Quality := 80
    GZipCompression := 5
    Key := []
    Salt := []
    Secret := [] }

/-- The loading steps of `init` (lines 99 to 119): every field is read from
its variable, then the key and the salt from their files. -/
def initLoad (env : Env) (fs : FS) (keypath saltpath : Bytes) (numCPU : Int) :
    Except Fatal config :=
  let c := conf numCPU
  let c := { c with Bind := strEnvConfig c.Bind env "IMGPROXY_BIND" }
  let c := { c with ReadTimeout := intEnvConfig c.ReadTimeout env "IMGPROXY_READ_TIMEOUT" }
  let c := { c with WriteTimeout := intEnvConfig c.WriteTimeout env "IMGPROXY_WRITE_TIMEOUT" }
  let c := { c with
    DownloadTimeout := intEnvConfig c.DownloadTimeout env "IMGPROXY_DOWNLOAD_TIMEOUT" }
  let c := { c with Concurrency := intEnvConfig c.Concurrency env "IMGPROXY_CONCURRENCY" }
  let c := { c with MaxClients := intEnvConfig c.MaxClients env "IMGPROXY_MAX_CLIENTS" }
  let c := { c with TTL := intEnvConfig c.TTL env "IMGPROXY_TTL" }
  let c := { c with
    MaxSrcDimension := intEnvConfig c.MaxSrcDimension env "IMGPROXY_MAX_SRC_DIMENSION" }
  let c := { c with Quality := intEnvConfig c.Quality env "IMGPROXY_QUALITY" }
  let c := { c with
    GZipCompression := intEnvConfig c.GZipCompression env "IMGPROXY_GZIP_COMPRESSION" }
  match hexEnvConfig c.Key env "IMGPROXY_KEY" with
  | .error e => .error e
  | .ok k1 =>
    match hexEnvConfig c.Salt env "IMGPROXY_SALT" with
    | .error e => .error e
    | .ok s1 =>
      match hexFileConfig k1 fs keypath with
      | .error e => .error e
      | .ok k2 =>
        match hexFileConfig s1 fs saltpath with
        | .error e => .error e
        | .ok s2 =>
          .ok { c with
            Key := k2
            Salt := s2
            Secret := strEnvConfig c.Secret env "IMGPROXY_SECRET" }

/-- The checks of `init` (lines 121 to 170) on the loaded configuration, in
the order of the source; `MaxClients` is not checked but derived from
`Concurrency` when it is not positive. The result is the configuration with
which `initVips` is reached. -/
def initValidate (c : config) : Except Fatal config :=
  if c.Key.length = 0 then .error .keyNotDefined
  else if c.Salt.length = 0 then .error .saltNotDefined
  else if c.Bind.length = 0 then .error .bindNotDefined
  else if c.ReadTimeout ≤ 0 then .error (.readTimeout c.ReadTimeout)
  else if c.WriteTimeout ≤ 0 then .error (.writeTimeout c.WriteTimeout)
  else if c.DownloadTimeout ≤ 0 then .error (.downloadTimeout c.DownloadTimeout)
  else if c.Concurrency ≤ 0 then .error (.concurrency c.Concurrency)
  else
    let c :=
      if c.MaxClients ≤ 0 then { c with MaxClients := wrapInt (c.Concurrency * 5) } else c
    if c.TTL ≤ 0 then .error (.ttl c.TTL)
    else if c.MaxSrcDimension ≤ 0 then .error (.maxSrcDimension c.MaxSrcDimension)
    else if c.Quality ≤ 0 then .error (.qualityLow c.Quality)
    else if c.Quality > 100 then .error (.qualityHigh c.Quality)
    else if c.GZipCompression < 0 then .error (.gzipLow c.GZipCompression)
    else if c.GZipCompression > 9 then .error (.gzipHigh c.GZipCompression)
    else .ok c

/-- The function `init`, from the parsed flags `-keypath` and `-saltpath`: the
loading steps, then the checks. `.ok c` means that no `log.Fatal*` was reached
and `initVips` is called with `conf = c`. -/
def init (env : Env) (fs : FS) (keypath saltpath : Bytes) (numCPU : Int) :
    Except Fatal config :=
  match initLoad env fs keypath saltpath numCPU with
  | .error e => .error e
  | .ok c => initValidate c

/-! ## Notions used to state the properties -/

/-- The configuration after the loading steps, given the key and the salt that
the hexadecimal readers produced. -/
def loaded (env : Env) (numCPU : Int) (key salt : Bytes) : config :=
  { Bind := strEnvConfig (goStr ":8080") env "IMGPROXY_BIND"
    ReadTimeout := intEnvConfig 10 env "IMGPROXY_READ_TIMEOUT"
    WriteTimeout := intEnvConfig 10 env "IMGPROXY_WRITE_TIMEOUT"
    DownloadTimeout := intEnvConfig 5 env "IMGPROXY_DOWNLOAD_TIMEOUT"
    Concurrency := intEnvConfig (wrapInt (numCPU * 2)) env "IMGPROXY_CONCURRENCY"
    MaxClients := intEnvConfig 0 env "IMGPROXY_MAX_CLIENTS"
    TTL := intEnvConfig 3600 env "IMGPROXY_TTL"
    MaxSrcDimension := intEnvConfig 4096 env "IMGPROXY_MAX_SRC_DIMENSION"
    Quality := intEnvConfig 80 env "IMGPROXY_QUALITY"
    GZipCompression := intEnvConfig 5 env "IMGPROXY_GZIP_COMPRESSION"
    Key := key
    Salt := salt
    Secret := strEnvConfig [] env "IMGPROXY_SECRET" }

/-- The variable `name` yields a non-empty byte string: it is set, not empty,
and decodes to at least one byte. -/
def envYields (env : Env) (name : String) : Bool :=
  match hexEnvConfig [] env name with
  | .ok (_ :: _) => true
  | _ => false

/-- The file named by the flag yields a non-empty byte string: the flag is not
empty, the file can be read, and its trimmed content decodes to at least one
byte. -/
def fileYields (fs : FS) (filepath : Bytes) : Bool :=
  match filepath, hexFileConfig [] fs filepath with
  | _ :: _, .ok (_ :: _) => true
  | _, _ => false

/-- The variable `name` is set to a string that `strconv.Atoi` parses to an
integer outside `[lo, hi]`. -/
def parsesOutside (env : Env) (name : String) (lo hi : Int) : Bool :=
  match Atoi (Getenv env name) with
  | some v => decide (v < lo ∨ hi < v)
  | none => false

/-- The string is no valid hexadecimal string: its length is odd or one of its
bytes is no hexadecimal digit. -/
def notHex (s : Bytes) : Prop := s.length % 2 = 1 ∨ ∃ c ∈ s, fromHexChar c = none

instance : DecidablePred notHex := fun s => by
  unfold notHex
  infer_instance

/-- The integer that a string writes in decimal: an optional sign (`+` or
`-`), then one or more decimal digits; `none` when the string is no decimal
integer. No range applies. -/
def decimalValue (s : Bytes) : Option Int :=
  match s with
  | [] => none
  | c :: rest =>
    if c = 45 then
      match parseUnsigned rest with
      | some n => some (-(n : Int))
      | none => none
    else if c = 43 then
      match parseUnsigned rest with
      | some n => some (n : Int)
      | none => none
    else
      match parseUnsigned (c :: rest) with
      | some n => some (n : Int)
      | none => none

/-! ## Concrete environments and file systems -/

/-- The environment in which exactly the listed variables are set. -/
def envOf (vars : List (String × Bytes)) : Env := fun name => vars.lookup name

/-- The file system in which exactly the listed files exist and are readable. -/
def fsOf (files : List (Bytes × Bytes)) : FS := fun path =>
  match files.lookup path with
  | some src => .content src
  | none => .openError


/-- Key `00`, salt `ab`, and a quality of 101. -/
def envQuality101 : Env :=
  envOf [("IMGPROXY_KEY", goStr "00"), ("IMGPROXY_SALT", goStr "ab"),
    ("IMGPROXY_QUALITY", goStr "101")]

/-- What the loading steps produce from `envQuality101` on a machine with four CPUs. -/
def confQuality101 : config :=
  { conf 4 with Quality := 101, Key := [0], Salt := [171] }

/-- Nothing in the environment and no files: neither key nor salt is given. -/
def envEmpty : Env := envOf []

/-- Key `00`, salt `ab`, a quality of 90 and a read timeout of 30 seconds. -/
def envTuned : Env :=
  envOf [("IMGPROXY_KEY", goStr "00"), ("IMGPROXY_SALT", goStr "ab"),
    ("IMGPROXY_QUALITY", goStr "90"), ("IMGPROXY_READ_TIMEOUT", goStr "30")]

/-- The configuration with which `init` succeeds from `envTuned` on four CPUs. -/
def confTuned : config :=
  { conf 4 with ReadTimeout := 30, MaxClients := 40, Quality := 90, Key := [0], Salt := [171] }

/-- Key `00`, salt `ab`, and `IMGPROXY_CONCURRENCY` set to `2^61`. -/
def envConcurrencyPow61 : Env :=
  envOf [("IMGPROXY_KEY", goStr "00"), ("IMGPROXY_SALT", goStr "ab"),
    ("IMGPROXY_CONCURRENCY", goStr "2305843009213693952")]

/-- Key `00`, salt `ab`, and `IMGPROXY_CONCURRENCY` set to `2^62 - 1`. -/
def envConcurrencyLarge : Env :=
  envOf [("IMGPROXY_KEY", goStr "00"), ("IMGPROXY_SALT", goStr "ab"),
    ("IMGPROXY_CONCURRENCY", goStr "4611686018427387903")]

/-- Key `00`, salt `ab`, `IMGPROXY_QUALITY=abc`. -/
def envQualityAbc : Env :=
  envOf [("IMGPROXY_KEY", goStr "00"), ("IMGPROXY_SALT", goStr "ab"),
    ("IMGPROXY_QUALITY", goStr "abc")]

/-- Key `00`, salt `ab`, `IMGPROXY_MAX_CLIENTS=-1`. -/
def envMaxClientsNegative : Env :=
  envOf [("IMGPROXY_KEY", goStr "00"), ("IMGPROXY_SALT", goStr "ab"),
    ("IMGPROXY_MAX_CLIENTS", goStr "-1")]

/-- Key `00`, salt `ab`, `IMGPROXY_TTL=0`. -/
def envTTLZero : Env :=
  envOf [("IMGPROXY_KEY", goStr "00"), ("IMGPROXY_SALT", goStr "ab"),
    ("IMGPROXY_TTL", goStr "0")]

/-- Key `00` and salt `ab`, nothing else. -/
def envKeySalt : Env :=
  envOf [("IMGPROXY_KEY", goStr "00"), ("IMGPROXY_SALT", goStr "ab")]

/-- Salt `ab` and a key that is no hexadecimal string. -/
def envKeyNotHex : Env :=
  envOf [("IMGPROXY_KEY", goStr "zz"), ("IMGPROXY_SALT", goStr "ab")]

/-- Salt `ab` and no key. -/
def envSaltOnly : Env := envOf [("IMGPROXY_SALT", goStr "ab")]

/-- Salt `ab` and the key `ff`. -/
def envKeyFF : Env :=
  envOf [("IMGPROXY_KEY", goStr "ff"), ("IMGPROXY_SALT", goStr "ab")]

/-- A file `key` that holds `00` followed by a line feed. -/
def fsKeyFile : FS := fsOf [(goStr "key", goStr "00" ++ [10])]

/-- A file `key` that holds ` \t0aFf\r\n`. -/
def fsPaddedKeyFile : FS := fsOf [(goStr "key", [32, 9] ++ goStr "0aFf" ++ [13, 10])]

/-- A configuration with key, salt and valid numbers, but an empty listen address. -/
def confNoBind : config :=
  { conf 4 with Bind := [], Key := [0], Salt := [171] }

/-- Key `00`, salt `ab`, and one admitted client. -/
def envOneClient : Env :=
  envOf [("IMGPROXY_KEY", goStr "00"), ("IMGPROXY_SALT", goStr "ab"),
    ("IMGPROXY_MAX_CLIENTS", goStr "1")]

/-- Key `0aFf` in mixed case and salt `ab`. -/
def envKeyMixedCase : Env :=
  envOf [("IMGPROXY_KEY", goStr "0aFf"), ("IMGPROXY_SALT", goStr "ab")]

/-- Key `00` and a salt of odd length. -/
def envSaltOdd : Env :=
  envOf [("IMGPROXY_KEY", goStr "00"), ("IMGPROXY_SALT", goStr "abc")]

/-- Key `00`, salt `ab`, and an empty `IMGPROXY_BIND`. -/
def envBindEmpty : Env :=
  envOf [("IMGPROXY_KEY", goStr "00"), ("IMGPROXY_SALT", goStr "ab"), ("IMGPROXY_BIND", [])]

/-- Key `00`, salt `ab`, a secret, and `IMGPROXY_MAX_CLIENTS=many`. -/
def envSecretAndClients : Env :=
  envOf [("IMGPROXY_KEY", goStr "00"), ("IMGPROXY_SALT", goStr "ab"),
    ("IMGPROXY_SECRET", goStr "s"), ("IMGPROXY_MAX_CLIENTS", goStr "many")]

/-- Key `00`, salt `ab`, and a TTL beyond the range of `int`. -/
def envTTLHuge : Env :=
  envOf [("IMGPROXY_KEY", goStr "00"), ("IMGPROXY_SALT", goStr "ab"),
    ("IMGPROXY_TTL", goStr "99999999999999999999")]

/-- Key `00`, salt `ab`, and `IMGPROXY_CONCURRENCY=2000000000000000000`. -/
def envConcurrencyTwoE18 : Env :=
  envOf [("IMGPROXY_KEY", goStr "00"), ("IMGPROXY_SALT", goStr "ab"),
    ("IMGPROXY_CONCURRENCY", goStr "2000000000000000000")]

/-! ## Structure of `init` -/

/-- A successful `init` is a successful load followed by successful checks. -/
theorem init_ok_split {env : Env} {fs : FS} {keypath saltpath : Bytes} {numCPU : Int}
    {c : config} (h : init env fs keypath saltpath numCPU = .ok c) :
    ∃ c0, initLoad env fs keypath saltpath numCPU = .ok c0 ∧ initValidate c0 = .ok c := by
  unfold init at h
  split at h
  · cases h
  · exact ⟨_, by assumption, h⟩

/-- When the load fails, so does `init`, with the same error. -/
theorem init_of_load_error {env : Env} {fs : FS} {keypath saltpath : Bytes} {numCPU : Int}
    {e : Fatal} (h : initLoad env fs keypath saltpath numCPU = .error e) :
    init env fs keypath saltpath numCPU = .error e := by
  unfold init; rw [h]

/-- When the load succeeds, `init` is the checks on the loaded configuration. -/
theorem init_of_load_ok {env : Env} {fs : FS} {keypath saltpath : Bytes} {numCPU : Int}
    {c0 : config} (h : initLoad env fs keypath saltpath numCPU = .ok c0) :
    init env fs keypath saltpath numCPU = initValidate c0 := by
  unfold init; rw [h]

/-- What the checks establish, and the configuration they return. -/
theorem initValidate_ok {c0 c : config} (h : initValidate c0 = .ok c) :
    c0.Key ≠ [] ∧ c0.Salt ≠ [] ∧ c0.Bind ≠ [] ∧ 0 < c0.ReadTimeout ∧ 0 < c0.WriteTimeout ∧
    0 < c0.DownloadTimeout ∧ 0 < c0.Concurrency ∧ 0 < c0.TTL ∧ 0 < c0.MaxSrcDimension ∧
    0 < c0.Quality ∧ c0.Quality ≤ 100 ∧ 0 ≤ c0.GZipCompression ∧ c0.GZipCompression ≤ 9 ∧
    c = { c0 with
      MaxClients := if c0.MaxClients ≤ 0 then wrapInt (c0.Concurrency * 5) else c0.MaxClients } := by
  unfold initValidate at h
  by_cases h1 : c0.Key.length = 0
  · rw [if_pos h1] at h; cases h
  rw [if_neg h1] at h
  by_cases h2 : c0.Salt.length = 0
  · rw [if_pos h2] at h; cases h
  rw [if_neg h2] at h
  by_cases h3 : c0.Bind.length = 0
  · rw [if_pos h3] at h; cases h
  rw [if_neg h3] at h
  by_cases h4 : c0.ReadTimeout ≤ 0
  · rw [if_pos h4] at h; cases h
  rw [if_neg h4] at h
  by_cases h5 : c0.WriteTimeout ≤ 0
  · rw [if_pos h5] at h; cases h
  rw [if_neg h5] at h
  by_cases h6 : c0.DownloadTimeout ≤ 0
  · rw [if_pos h6] at h; cases h
  rw [if_neg h6] at h
  by_cases h7 : c0.Concurrency ≤ 0
  · rw [if_pos h7] at h; cases h
  rw [if_neg h7] at h
  simp only [List.length_eq_zero] at h1 h2 h3
  generalize hc : (if c0.MaxClients ≤ 0 then
    { c0 with MaxClients := wrapInt (c0.Concurrency * 5) } else c0) = c1 at h
  have e1 : c1 = { c0 with MaxClients :=
      if c0.MaxClients ≤ 0 then wrapInt (c0.Concurrency * 5) else c0.MaxClients } := by
    rw [← hc]; split <;> rfl
  simp only at h
  by_cases h8 : c1.TTL ≤ 0
  · rw [if_pos h8] at h; cases h
  rw [if_neg h8] at h
  by_cases h9 : c1.MaxSrcDimension ≤ 0
  · rw [if_pos h9] at h; cases h
  rw [if_neg h9] at h
  by_cases h10 : c1.Quality ≤ 0
  · rw [if_pos h10] at h; cases h
  rw [if_neg h10] at h
  by_cases h11 : c1.Quality > 100
  · rw [if_pos h11] at h; cases h
  rw [if_neg h11] at h
  by_cases h12 : c1.GZipCompression < 0
  · rw [if_pos h12] at h; cases h
  rw [if_neg h12] at h
  by_cases h13 : c1.GZipCompression > 9
  · rw [if_pos h13] at h; cases h
  rw [if_neg h13] at h
  injection h with h
  subst h
  subst e1
  simp only at h8 h9 h10 h11 h12 h13
  refine ⟨h1, h2, h3, ?_, ?_, ?_, ?_, ?_, ?_, ?_, ?_, ?_, ?_, rfl⟩ <;> omega

/-- The loading steps, as the four hexadecimal readers in the order of the
source around the fields read from the environment. -/
theorem initLoad_eq (env : Env) (fs : FS) (keypath saltpath : Bytes) (numCPU : Int) :
    initLoad env fs keypath saltpath numCPU =
      match hexEnvConfig [] env "IMGPROXY_KEY" with
      | .error e => .error e
      | .ok k1 =>
        match hexEnvConfig [] env "IMGPROXY_SALT" with
        | .error e => .error e
        | .ok s1 =>
          match hexFileConfig k1 fs keypath with
          | .error e => .error e
          | .ok k2 =>
            match hexFileConfig s1 fs saltpath with
            | .error e => .error e
            | .ok s2 => .ok (loaded env numCPU k2 s2) := rfl

/-- A successful load, taken apart. -/
theorem initLoad_ok {env : Env} {fs : FS} {keypath saltpath : Bytes} {numCPU : Int}
    {c0 : config} (h : initLoad env fs keypath saltpath numCPU = .ok c0) :
    ∃ k1 s1 k2 s2, hexEnvConfig [] env "IMGPROXY_KEY" = .ok k1 ∧
      hexEnvConfig [] env "IMGPROXY_SALT" = .ok s1 ∧
      hexFileConfig k1 fs keypath = .ok k2 ∧ hexFileConfig s1 fs saltpath = .ok s2 ∧
      c0 = loaded env numCPU k2 s2 := by
  rw [initLoad_eq] at h
  split at h
  · cases h
  split at h
  · cases h
  split at h
  · cases h
  split at h
  · cases h
  injection h with h
  exact ⟨_, _, _, _, by assumption, by assumption, by assumption, by assumption, h.symm⟩

/-- The load succeeds when the four hexadecimal readers do. -/
theorem initLoad_of_readers {env : Env} {fs : FS} {keypath saltpath : Bytes} (numCPU : Int)
    {k1 s1 k2 s2 : Bytes} (hk1 : hexEnvConfig [] env "IMGPROXY_KEY" = .ok k1)
    (hs1 : hexEnvConfig [] env "IMGPROXY_SALT" = .ok s1)
    (hk2 : hexFileConfig k1 fs keypath = .ok k2) (hs2 : hexFileConfig s1 fs saltpath = .ok s2) :
    initLoad env fs keypath saltpath numCPU = .ok (loaded env numCPU k2 s2) := by
  rw [initLoad_eq, hk1, hs1]
  simp only
  rw [hk2, hs2]

/-- Function `hexFileConfig` with an empty path returns the target. -/
theorem hexFileConfig_nil (b : Bytes) (fs : FS) : hexFileConfig b fs [] = .ok b := rfl

/-- Function `hexFileConfig` with a non-empty path does not depend on the target. -/
theorem hexFileConfig_target (b b' : Bytes) (fs : FS) {filepath : Bytes} (h : filepath ≠ []) :
    hexFileConfig b fs filepath = hexFileConfig b' fs filepath := by
  unfold hexFileConfig
  rw [if_neg (by simpa [List.length_eq_zero] using h),
    if_neg (by simpa [List.length_eq_zero] using h)]

/-- A configuration that meets every requirement passes the checks. -/
theorem initValidate_of_valid (c0 : config) (hk : c0.Key ≠ []) (hs : c0.Salt ≠ [])
    (hb : c0.Bind ≠ []) (h4 : 0 < c0.ReadTimeout) (h5 : 0 < c0.WriteTimeout)
    (h6 : 0 < c0.DownloadTimeout) (h7 : 0 < c0.Concurrency) (h8 : 0 < c0.TTL)
    (h9 : 0 < c0.MaxSrcDimension) (h10 : 0 < c0.Quality) (h11 : c0.Quality ≤ 100)
    (h12 : 0 ≤ c0.GZipCompression) (h13 : c0.GZipCompression ≤ 9) :
    initValidate c0 = .ok { c0 with
      MaxClients := if c0.MaxClients ≤ 0 then wrapInt (c0.Concurrency * 5) else c0.MaxClients } := by
  unfold initValidate
  rw [if_neg (by simpa [List.length_eq_zero] using hk),
    if_neg (by simpa [List.length_eq_zero] using hs),
    if_neg (by simpa [List.length_eq_zero] using hb),
    if_neg (by omega), if_neg (by omega), if_neg (by omega), if_neg (by omega)]
  by_cases hm : c0.MaxClients ≤ 0
  · simp only [if_pos hm]
    rw [if_neg (by simpa using h8), if_neg (by simpa using h9), if_neg (by simpa using h10),
      if_neg (by simpa using h11), if_neg (by simpa using h12), if_neg (by simpa using h13)]
  · simp only [if_neg hm]
    rw [if_neg (by simpa using h8), if_neg (by simpa using h9), if_neg (by simpa using h10),
      if_neg (by simpa using h11), if_neg (by simpa using h12), if_neg (by simpa using h13)]

/-- A result that is no configuration is a fatal error. -/
theorem fatal_of_not_ok {r : Except Fatal config} (h : ∀ c, r ≠ .ok c) : ∃ e, r = .error e := by
  cases r with
  | error e => exact ⟨e, rfl⟩
  | ok c => exact absurd rfl (h c)

/-- A started configuration passed every check: the key, the salt and the
listen address are not empty and the checked numbers are in range. -/
theorem init_ok_checks {env : Env} {fs : FS} {keypath saltpath : Bytes} {numCPU : Int}
    {c : config} (h : init env fs keypath saltpath numCPU = .ok c) :
    c.Key ≠ [] ∧ c.Salt ≠ [] ∧ c.Bind ≠ [] ∧ 0 < c.ReadTimeout ∧ 0 < c.WriteTimeout ∧
    0 < c.DownloadTimeout ∧ 0 < c.Concurrency ∧ 0 < c.TTL ∧ 0 < c.MaxSrcDimension ∧
    0 < c.Quality ∧ c.Quality ≤ 100 ∧ 0 ≤ c.GZipCompression ∧ c.GZipCompression ≤ 9 := by
  obtain ⟨c0, -, hv⟩ := init_ok_split h
  obtain ⟨hk, hs, hb, h4, h5, h6, h7, h8, h9, h10, h11, h12, h13, rfl⟩ := initValidate_ok hv
  exact ⟨hk, hs, hb, h4, h5, h6, h7, h8, h9, h10, h11, h12, h13⟩

/-! ## C1: out-of-range timeouts, quality and compression are fatal -/

/-- C1. Whenever the loading steps of `init` leave `ReadTimeout`,
`WriteTimeout` or `DownloadTimeout` at a value `≤ 0`, or `Quality` outside
`[1,100]`, or `GZipCompression` outside `[0,9]`, `init` ends in a fatal error:
it returns no configuration and `initVips` is not reached. -/
theorem init_fatal_of_bad_numeric (env : Env) (fs : FS) (keypath saltpath : Bytes)
    (numCPU : Int) (c0 : config)
    (hload : initLoad env fs keypath saltpath numCPU = .ok c0)
    (hbad : c0.ReadTimeout ≤ 0 ∨ c0.WriteTimeout ≤ 0 ∨ c0.DownloadTimeout ≤ 0 ∨
      c0.Quality < 1 ∨ 100 < c0.Quality ∨ c0.GZipCompression < 0 ∨ 9 < c0.GZipCompression) :
    ∃ e, init env fs keypath saltpath numCPU = .error e := by
  rw [init_of_load_ok hload]
  apply fatal_of_not_ok
  intro c hc
  have hv := initValidate_ok hc
  omega

/-- Witness of C1: with `IMGPROXY_QUALITY=101` the load succeeds, the quality
is out of range, and `init` is fatal. -/
theorem init_fatal_of_bad_numeric_witness :
    initLoad envQuality101 (fsOf []) [] [] 4 = .ok confQuality101 ∧
    100 < confQuality101.Quality ∧
    ∃ e, init envQuality101 (fsOf []) [] [] 4 = .error e :=
  ⟨by decide, by decide,
    init_fatal_of_bad_numeric envQuality101 (fsOf []) [] [] 4 confQuality101 (by decide)
      (Or.inr (Or.inr (Or.inr (Or.inr (Or.inl (by decide))))))⟩

/-! ## C2: a missing key or salt is fatal -/

/-- C2. A missing Key or Salt is fatal: when neither `IMGPROXY_KEY` nor the
`-keypath` file yields a non-empty byte string, or neither `IMGPROXY_SALT` nor
the `-saltpath` file does, `init` ends in a fatal error; in particular when
`IMGPROXY_KEY` is unset or empty and `-keypath` is empty. -/
theorem init_fatal_of_missing_key_or_salt (env : Env) (fs : FS) (keypath saltpath : Bytes)
    (numCPU : Int)
    (h : (envYields env "IMGPROXY_KEY" = false ∧ fileYields fs keypath = false) ∨
      (envYields env "IMGPROXY_SALT" = false ∧ fileYields fs saltpath = false) ∨
      ((env "IMGPROXY_KEY" = none ∨ env "IMGPROXY_KEY" = some []) ∧ keypath = [])) :
    ∃ e, init env fs keypath saltpath numCPU = .error e := by
  apply fatal_of_not_ok
  intro c hc
  obtain ⟨c0, hl, hv⟩ := init_ok_split hc
  obtain ⟨k1, s1, k2, s2, hk1, hs1, hk2, hs2, rfl⟩ := initLoad_ok hl
  obtain ⟨hk, hs, -⟩ := initValidate_ok hv
  simp only [loaded] at hk hs
  have key : ∀ (name : String) (path a b : Bytes), hexEnvConfig [] env name = .ok a →
      hexFileConfig a fs path = .ok b → b ≠ [] →
      ¬ (envYields env name = false ∧ fileYields fs path = false) := by
    intro name path a b ha hb hne ⟨h1, h2⟩
    cases path with
    | nil =>
      rw [hexFileConfig_nil] at hb
      injection hb with hb
      subst hb
      cases a with
      | nil => exact hne rfl
      | cons x xs => simp [envYields, ha] at h1
    | cons p ps =>
      rw [hexFileConfig_target a [] fs (List.cons_ne_nil p ps)] at hb
      cases b with
      | nil => exact hne rfl
      | cons x xs => simp [fileYields, hb] at h2
  rcases h with h | h | ⟨h, rfl⟩
  · exact key _ _ _ _ hk1 hk2 hk h
  · exact key _ _ _ _ hs1 hs2 hs h
  · rw [hexFileConfig_nil] at hk2
    injection hk2 with hk2
    subst hk2
    have : hexEnvConfig [] env "IMGPROXY_KEY" = .ok [] := by
      rcases h with h | h <;> simp [hexEnvConfig, Getenv, h]
    rw [this] at hk1
    injection hk1 with hk1
    exact hk hk1.symm

/-- Witness of C2: with an empty environment and no flags, `init` is fatal. -/
theorem init_fatal_of_missing_key_or_salt_witness :
    envEmpty "IMGPROXY_KEY" = none ∧ ∃ e, init envEmpty (fsOf []) [] [] 4 = .error e :=
  ⟨by decide,
    init_fatal_of_missing_key_or_salt envEmpty (fsOf []) [] [] 4
      (Or.inr (Or.inr ⟨Or.inl (by decide), rfl⟩))⟩

/-! ## C3: the invariant of a started configuration -/

/-- C3. Every configuration with which `init` succeeds has positive
`ReadTimeout`, `WriteTimeout`, `DownloadTimeout`, `Concurrency`, `TTL` and
`MaxSrcDimension`, `Quality` in `[1,100]`, `GZipCompression` in `[0,9]`,
non-empty `Key` and `Salt`, and a non-empty `Bind`. -/
theorem init_ok_invariant (env : Env) (fs : FS) (keypath saltpath : Bytes) (numCPU : Int)
    (c : config) (h : init env fs keypath saltpath numCPU = .ok c) :
    0 < c.ReadTimeout ∧ 0 < c.WriteTimeout ∧ 0 < c.DownloadTimeout ∧ 0 < c.Concurrency ∧
    0 < c.TTL ∧ 0 < c.MaxSrcDimension ∧ 1 ≤ c.Quality ∧ c.Quality ≤ 100 ∧
    0 ≤ c.GZipCompression ∧ c.GZipCompression ≤ 9 ∧
    0 < c.Key.length ∧ 0 < c.Salt.length ∧ 0 < c.Bind.length := by
  obtain ⟨hk, hs, hb, h4, h5, h6, h7, h8, h9, h10, h11, h12, h13⟩ := init_ok_checks h
  refine ⟨h4, h5, h6, h7, h8, h9, Int.add_one_le_of_lt h10, h11, h12, h13, ?_, ?_, ?_⟩
  · exact List.length_pos.mpr hk
  · exact List.length_pos.mpr hs
  · exact List.length_pos.mpr hb

/-- Witness of C3: a successful start and its invariant. -/
theorem init_ok_invariant_witness :
    init envTuned (fsOf []) [] [] 4 = .ok confTuned ∧
    0 < confTuned.ReadTimeout ∧ 0 < confTuned.WriteTimeout ∧ 0 < confTuned.DownloadTimeout ∧
    0 < confTuned.Concurrency ∧ 0 < confTuned.TTL ∧ 0 < confTuned.MaxSrcDimension ∧
    1 ≤ confTuned.Quality ∧ confTuned.Quality ≤ 100 ∧
    0 ≤ confTuned.GZipCompression ∧ confTuned.GZipCompression ≤ 9 ∧
    0 < confTuned.Key.length ∧ 0 < confTuned.Salt.length ∧ 0 < confTuned.Bind.length :=
  ⟨by decide, init_ok_invariant envTuned (fsOf []) [] [] 4 confTuned (by decide)⟩

/-! ## C4 and C5: the derived `MaxClients` -/

/-- Without overflow the wrap-around is the identity. -/
theorem wrapInt_of_range {x : Int} (h1 : minInt ≤ x) (h2 : x ≤ maxInt) : wrapInt x = x := by
  unfold wrapInt
  unfold minInt at h1
  unfold maxInt at h2
  omega

/-- The `MaxClients` of a started configuration: the loaded value when it is
positive, otherwise the wrapped product `Concurrency * 5`. -/
theorem init_ok_maxClients {env : Env} {fs : FS} {keypath saltpath : Bytes} {numCPU : Int}
    {c : config} (h : init env fs keypath saltpath numCPU = .ok c) :
    c.MaxClients =
      if intEnvConfig 0 env "IMGPROXY_MAX_CLIENTS" ≤ 0 then wrapInt (c.Concurrency * 5)
      else intEnvConfig 0 env "IMGPROXY_MAX_CLIENTS" := by
  obtain ⟨c0, hl, hv⟩ := init_ok_split h
  obtain ⟨k1, s1, k2, s2, -, -, -, -, rfl⟩ := initLoad_ok hl
  obtain ⟨-, -, -, -, -, -, -, -, -, -, -, -, -, rfl⟩ := initValidate_ok hv
  rfl

/-- In Go's own wrapping arithmetic the derivation is exact: when
`IMGPROXY_MAX_CLIENTS` is unset, `MaxClients` is the `int` product
`Concurrency * 5`. -/
theorem init_ok_maxClients_wrapped {env : Env} {fs : FS} {keypath saltpath : Bytes}
    {numCPU : Int} {c : config} (h : init env fs keypath saltpath numCPU = .ok c)
    (hunset : env "IMGPROXY_MAX_CLIENTS" = none) :
    c.MaxClients = wrapInt (c.Concurrency * 5) := by
  rw [init_ok_maxClients h]
  have : intEnvConfig 0 env "IMGPROXY_MAX_CLIENTS" = 0 := by
    simp [intEnvConfig, Getenv, hunset, Atoi]
  rw [this]
  simp

/-- When `5 * Concurrency` fits in an `int`, a started configuration has a
positive `MaxClients`, and one equal to `5 * Concurrency` when
`IMGPROXY_MAX_CLIENTS` is unset. -/
theorem init_ok_maxClients_no_overflow {env : Env} {fs : FS} {keypath saltpath : Bytes}
    {numCPU : Int} {c : config} (h : init env fs keypath saltpath numCPU = .ok c)
    (hfit : c.Concurrency * 5 ≤ maxInt) :
    0 < c.MaxClients ∧ (env "IMGPROXY_MAX_CLIENTS" = none → c.MaxClients = 5 * c.Concurrency) := by
  have hpos : 0 < c.Concurrency := (init_ok_checks h).2.2.2.2.2.2.1
  have hw : wrapInt (c.Concurrency * 5) = c.Concurrency * 5 :=
    wrapInt_of_range (by unfold minInt; omega) hfit
  constructor
  · rw [init_ok_maxClients h]
    split
    · rw [hw]; omega
    · omega
  · intro hunset
    rw [init_ok_maxClients_wrapped h hunset, hw]
    ring

/-- C4. With `IMGPROXY_CONCURRENCY=2305843009213693952` (`2^61`) and
`IMGPROXY_MAX_CLIENTS` unset, `init` succeeds and the configuration it starts
with has a negative `MaxClients`: the product `Concurrency * 5` wrapped around. -/
theorem init_maxClients_negative :
    ∃ c, init envConcurrencyPow61 (fsOf []) [] [] 4 = .ok c ∧
      c.Concurrency = 2305843009213693952 ∧ c.MaxClients = -6917529027641081856 ∧
      ¬ (0 < c.MaxClients) :=
  ⟨{ conf 4 with
      Concurrency := 2305843009213693952
      MaxClients := -6917529027641081856
      Key := [0]
      Salt := [171] }, by decide, by decide, by decide, by decide⟩

/-- C5. With `IMGPROXY_CONCURRENCY=4611686018427387903` and
`IMGPROXY_MAX_CLIENTS` unset, `init` succeeds and the resulting `MaxClients`
is not five times the resulting `Concurrency`. -/
theorem init_maxClients_not_five_times :
    envConcurrencyLarge "IMGPROXY_MAX_CLIENTS" = none ∧
    ∃ c, init envConcurrencyLarge (fsOf []) [] [] 4 = .ok c ∧
      c.Concurrency = 4611686018427387903 ∧ c.MaxClients = 4611686018427387899 ∧
      c.MaxClients ≠ 5 * c.Concurrency :=
  ⟨by decide,
    { conf 4 with
      Concurrency := 4611686018427387903
      MaxClients := 4611686018427387899
      Key := [0]
      Salt := [171] }, by decide, by decide, by decide, by decide⟩

/-! ## C6: numeric values that are out of range or do not parse -/

/-- A parsed value is what `intEnvConfig` stores. -/
theorem intEnvConfig_of_parsesOutside {env : Env} {name : String} {lo hi : Int} (i : Int)
    (h : parsesOutside env name lo hi = true) :
    intEnvConfig i env name < lo ∨ hi < intEnvConfig i env name := by
  unfold parsesOutside at h
  unfold intEnvConfig
  cases hv : Atoi (Getenv env name) with
  | none => rw [hv] at h; cases h
  | some v =>
    rw [hv] at h
    simpa using h

/-- What `strconv.Atoi` accepts is within the range of `int`. -/
theorem Atoi_range {s : Bytes} {v : Int} (h : Atoi s = some v) : minInt ≤ v ∧ v ≤ maxInt := by
  unfold Atoi at h
  unfold minInt maxInt
  split at h
  · cases h
  · split_ifs at h
    · split at h
      · split_ifs at h
        injection h with h
        omega
      · cases h
    · split at h
      · split_ifs at h
        injection h with h
        omega
      · cases h
    · split at h
      · split_ifs at h
        injection h with h
        omega
      · cases h

/-- The value that `intEnvConfig` stores is within the range of `int` when the
previous one was. -/
theorem intEnvConfig_range (i : Int) (env : Env) (name : String) (h1 : minInt ≤ i)
    (h2 : i ≤ maxInt) : minInt ≤ intEnvConfig i env name ∧ intEnvConfig i env name ≤ maxInt := by
  unfold intEnvConfig
  cases hv : Atoi (Getenv env name) with
  | none => exact ⟨h1, h2⟩
  | some v => exact Atoi_range hv

/-- Counterexample to C6 as stated: `IMGPROXY_QUALITY=abc` is no decimal
integer, and `IMGPROXY_MAX_CLIENTS=-1` is an integer outside `int>0`, yet in
both cases `init` succeeds, with the quality at its default 80 and with
`MaxClients` derived as `5 * Concurrency = 40`. -/
theorem init_ok_despite_bad_numeric :
    (Atoi (Getenv envQualityAbc "IMGPROXY_QUALITY") = none ∧
      init envQualityAbc (fsOf []) [] [] 4 =
        .ok { conf 4 with MaxClients := 40, Key := [0], Salt := [171] }) ∧
    (Atoi (Getenv envMaxClientsNegative "IMGPROXY_MAX_CLIENTS") = some (-1) ∧
      init envMaxClientsNegative (fsOf []) [] [] 4 =
        .ok { conf 4 with MaxClients := 40, Key := [0], Salt := [171] }) := by
  decide

/-- C6, amended. For each of the eight checked numeric variables
(`IMGPROXY_READ_TIMEOUT`, `IMGPROXY_WRITE_TIMEOUT`, `IMGPROXY_DOWNLOAD_TIMEOUT`,
`IMGPROXY_CONCURRENCY`, `IMGPROXY_TTL`, `IMGPROXY_MAX_SRC_DIMENSION`,
`IMGPROXY_QUALITY`, `IMGPROXY_GZIP_COMPRESSION`), when it is set to a string
that `strconv.Atoi` parses to an integer outside the range documented for it,
`init` ends in a fatal error. -/
theorem init_fatal_of_parsed_out_of_range (env : Env) (fs : FS) (keypath saltpath : Bytes)
    (numCPU : Int)
    (h : parsesOutside env "IMGPROXY_READ_TIMEOUT" 1 maxInt = true ∨
      parsesOutside env "IMGPROXY_WRITE_TIMEOUT" 1 maxInt = true ∨
      parsesOutside env "IMGPROXY_DOWNLOAD_TIMEOUT" 1 maxInt = true ∨
      parsesOutside env "IMGPROXY_CONCURRENCY" 1 maxInt = true ∨
      parsesOutside env "IMGPROXY_TTL" 1 maxInt = true ∨
      parsesOutside env "IMGPROXY_MAX_SRC_DIMENSION" 1 maxInt = true ∨
      parsesOutside env "IMGPROXY_QUALITY" 1 100 = true ∨
      parsesOutside env "IMGPROXY_GZIP_COMPRESSION" 0 9 = true) :
    ∃ e, init env fs keypath saltpath numCPU = .error e := by
  apply fatal_of_not_ok
  intro c hc
  obtain ⟨c0, hl, hv⟩ := init_ok_split hc
  obtain ⟨k1, s1, k2, s2, -, -, -, -, rfl⟩ := initLoad_ok hl
  obtain ⟨-, -, -, h4, h5, h6, h7, h8, h9, h10, h11, h12, h13, -⟩ := initValidate_ok hv
  simp only [loaded] at h4 h5 h6 h7 h8 h9 h10 h11 h12 h13
  have r : ∀ (i : Int) (name : String), minInt ≤ i → i ≤ maxInt →
      parsesOutside env name 1 maxInt = true → ¬ 0 < intEnvConfig i env name := by
    intro i name h1 h2 hp
    have ha := intEnvConfig_of_parsesOutside i hp
    have hb := (intEnvConfig_range i env name h1 h2).2
    omega
  have hw : minInt ≤ wrapInt (numCPU * 2) ∧ wrapInt (numCPU * 2) ≤ maxInt := by
    unfold wrapInt minInt maxInt
    omega
  rcases h with h | h | h | h | h | h | h | h
  · exact r 10 _ (by decide) (by decide) h h4
  · exact r 10 _ (by decide) (by decide) h h5
  · exact r 5 _ (by decide) (by decide) h h6
  · exact r _ _ hw.1 hw.2 h h7
  · exact r 3600 _ (by decide) (by decide) h h8
  · exact r 4096 _ (by decide) (by decide) h h9
  · have := intEnvConfig_of_parsesOutside 80 h
    omega
  · have := intEnvConfig_of_parsesOutside 5 h
    omega

/-- Witness of C6 as amended: `IMGPROXY_TTL=0` parses to an integer outside
`int>0`, and `init` is fatal. -/
theorem init_fatal_of_parsed_out_of_range_witness :
    parsesOutside envTTLZero "IMGPROXY_TTL" 1 maxInt = true ∧
    ∃ e, init envTTLZero (fsOf []) [] [] 4 = .error e :=
  ⟨by decide,
    init_fatal_of_parsed_out_of_range envTTLZero (fsOf []) [] [] 4
      (Or.inr (Or.inr (Or.inr (Or.inr (Or.inl (by decide))))))⟩

/-! ## C7: the documented defaults -/

/-- An unset variable leaves an integer field as it was. -/
theorem intEnvConfig_unset (i : Int) {env : Env} {name : String} (h : env name = none) :
    intEnvConfig i env name = i := by
  simp [intEnvConfig, Getenv, h, Atoi]

/-- An unset variable leaves a string field as it was. -/
theorem strEnvConfig_unset (s : Bytes) {env : Env} {name : String} (h : env name = none) :
    strEnvConfig s env name = s := by
  simp [strEnvConfig, Getenv, h]

/-- The bytes of the default listen address. -/
theorem goStr_bind : goStr ":8080" = [58, 56, 48, 56, 48] := by decide

/-- The documented defaults where no product overflows. On a machine where
`NumCPU` is positive and ten times it fits in an
`int`: when only Key and Salt are supplied (non-empty, through the variables
or the files) and every other `IMGPROXY_*` variable is unset, `init` succeeds
with exactly `Bind = ":8080"`, `ReadTimeout = 10`, `WriteTimeout = 10`,
`DownloadTimeout = 5`, `Concurrency = 2 * NumCPU`, `MaxClients = 5 *
Concurrency`, `TTL = 3600`, `MaxSrcDimension = 4096`, `Quality = 80`,
`GZipCompression = 5`, `Secret = ""`; and in every successful start each
unset variable leaves its field at that default (for `MaxClients`: the `int`
product `Concurrency * 5`, which is `5 * Concurrency` when that fits). -/
theorem init_defaults (numCPU : Int) (hcpu : 0 < numCPU) (hfit : numCPU * 10 ≤ maxInt) :
    (∀ (env : Env) (fs : FS) (keypath saltpath k1 s1 k s : Bytes),
      env "IMGPROXY_BIND" = none → env "IMGPROXY_READ_TIMEOUT" = none →
      env "IMGPROXY_WRITE_TIMEOUT" = none → env "IMGPROXY_DOWNLOAD_TIMEOUT" = none →
      env "IMGPROXY_CONCURRENCY" = none → env "IMGPROXY_MAX_CLIENTS" = none →
      env "IMGPROXY_TTL" = none → env "IMGPROXY_MAX_SRC_DIMENSION" = none →
      env "IMGPROXY_QUALITY" = none → env "IMGPROXY_GZIP_COMPRESSION" = none →
      env "IMGPROXY_SECRET" = none →
      hexEnvConfig [] env "IMGPROXY_KEY" = .ok k1 → hexEnvConfig [] env "IMGPROXY_SALT" = .ok s1 →
      hexFileConfig k1 fs keypath = .ok k → hexFileConfig s1 fs saltpath = .ok s →
      k ≠ [] → s ≠ [] →
      init env fs keypath saltpath numCPU = .ok
        { Bind := goStr ":8080"
          ReadTimeout := 10
          WriteTimeout := 10
          DownloadTimeout := 5
          Concurrency := 2 * numCPU
          MaxClients := 5 * (2 * numCPU)
          TTL := 3600
          MaxSrcDimension := 4096
          Quality := 80
          GZipCompression := 5
          Key := k
          Salt := s
          Secret := [] }) ∧
    (∀ (env : Env) (fs : FS) (keypath saltpath : Bytes) (c : config),
      init env fs keypath saltpath numCPU = .ok c →
      (env "IMGPROXY_BIND" = none → c.Bind = goStr ":8080") ∧
      (env "IMGPROXY_READ_TIMEOUT" = none → c.ReadTimeout = 10) ∧
      (env "IMGPROXY_WRITE_TIMEOUT" = none → c.WriteTimeout = 10) ∧
      (env "IMGPROXY_DOWNLOAD_TIMEOUT" = none → c.DownloadTimeout = 5) ∧
      (env "IMGPROXY_CONCURRENCY" = none → c.Concurrency = 2 * numCPU) ∧
      (env "IMGPROXY_MAX_CLIENTS" = none → c.MaxClients = wrapInt (c.Concurrency * 5) ∧
        (c.Concurrency * 5 ≤ maxInt → c.MaxClients = 5 * c.Concurrency)) ∧
      (env "IMGPROXY_TTL" = none → c.TTL = 3600) ∧
      (env "IMGPROXY_MAX_SRC_DIMENSION" = none → c.MaxSrcDimension = 4096) ∧
      (env "IMGPROXY_QUALITY" = none → c.Quality = 80) ∧
      (env "IMGPROXY_GZIP_COMPRESSION" = none → c.GZipCompression = 5) ∧
      (env "IMGPROXY_SECRET" = none → c.Secret = [])) := by
  have hw2 : wrapInt (numCPU * 2) = 2 * numCPU := by
    rw [wrapInt_of_range (by unfold minInt; omega) (by unfold maxInt at *; omega)]
    ring
  constructor
  · intro env fs keypath saltpath k1 s1 k s e1 e2 e3 e4 e5 e6 e7 e8 e9 e10 e11 hk1 hs1 hk hs
      hkne hsne
    rw [init_of_load_ok (initLoad_of_readers numCPU hk1 hs1 hk hs)]
    have hl : loaded env numCPU k s =
        { Bind := goStr ":8080", ReadTimeout := 10, WriteTimeout := 10, DownloadTimeout := 5,
          Concurrency := 2 * numCPU, MaxClients := 0, TTL := 3600, MaxSrcDimension := 4096,
          Quality := 80, GZipCompression := 5, Key := k, Salt := s, Secret := [] } := by
      simp only [loaded, intEnvConfig_unset _ e2, intEnvConfig_unset _ e3,
        intEnvConfig_unset _ e4, intEnvConfig_unset _ e5, intEnvConfig_unset _ e6,
        intEnvConfig_unset _ e7, intEnvConfig_unset _ e8, intEnvConfig_unset _ e9,
        intEnvConfig_unset _ e10, strEnvConfig_unset _ e1, strEnvConfig_unset _ e11, hw2]
    rw [hl, initValidate_of_valid _ hkne hsne (by simp [goStr_bind]) (by norm_num)
      (by norm_num) (by norm_num) (by simpa using hcpu) (by norm_num) (by norm_num)
      (by norm_num) (by norm_num) (by norm_num) (by norm_num)]
    have hw5 : wrapInt (2 * numCPU * 5) = 5 * (2 * numCPU) := by
      rw [wrapInt_of_range (by unfold minInt; omega) (by unfold maxInt at *; omega)]
      ring
    simp [hw5]
  · intro env fs keypath saltpath c h
    have hm := init_ok_maxClients h
    have hmw := @init_ok_maxClients_wrapped env fs keypath saltpath numCPU c h
    have hmn := @init_ok_maxClients_no_overflow env fs keypath saltpath numCPU c h
    obtain ⟨c0, hl, hv⟩ := init_ok_split h
    obtain ⟨k1, s1, k2, s2, -, -, -, -, rfl⟩ := initLoad_ok hl
    obtain ⟨-, -, -, -, -, -, -, -, -, -, -, -, -, rfl⟩ := initValidate_ok hv
    simp only [loaded] at hmw hmn ⊢
    refine ⟨fun e => strEnvConfig_unset _ e, fun e => intEnvConfig_unset _ e,
      fun e => intEnvConfig_unset _ e, fun e => intEnvConfig_unset _ e,
      fun e => by rw [intEnvConfig_unset _ e, hw2],
      fun e => ⟨hmw e, fun hf => (hmn hf).2 e⟩,
      fun e => intEnvConfig_unset _ e, fun e => intEnvConfig_unset _ e,
      fun e => intEnvConfig_unset _ e, fun e => intEnvConfig_unset _ e,
      fun e => strEnvConfig_unset _ e⟩

/-- The documented defaults at work: with only key and salt in the
environment, on four CPUs, `init` succeeds with the documented defaults, a
concurrency of 8 and 40 clients. -/
theorem init_defaults_witness :
    init envKeySalt (fsOf []) [] [] 4 = .ok
      { Bind := goStr ":8080"
        ReadTimeout := 10
        WriteTimeout := 10
        DownloadTimeout := 5
        Concurrency := 2 * 4
        MaxClients := 5 * (2 * 4)
        TTL := 3600
        MaxSrcDimension := 4096
        Quality := 80
        GZipCompression := 5
        Key := [0]
        Salt := [171]
        Secret := [] } :=
  (init_defaults 4 (by decide) (by decide)).1 envKeySalt (fsOf []) [] [] [0] [171] [0] [171]
    (by decide) (by decide) (by decide) (by decide) (by decide) (by decide) (by decide)
    (by decide) (by decide) (by decide) (by decide) (by decide) (by decide) (by decide)
    (by decide) (by decide) (by decide)

/-- C7. With the key, the salt and `IMGPROXY_CONCURRENCY=2000000000000000000`
set and every other variable unset, `init` succeeds and every other field is at its
documented default, but `MaxClients`, whose variable `IMGPROXY_MAX_CLIENTS` is
unset, is not left at its documented default `5 * Concurrency`: it is the
product wrapped around, a negative number. -/
theorem init_default_maxClients_overflow :
    envConcurrencyTwoE18 "IMGPROXY_MAX_CLIENTS" = none ∧
    ∃ c, init envConcurrencyTwoE18 (fsOf []) [] [] 4 = .ok c ∧
      c = { conf 4 with
        Concurrency := 2000000000000000000
        MaxClients := -8446744073709551616
        Key := [0]
        Salt := [171] } ∧
      c.MaxClients ≠ 5 * c.Concurrency :=
  ⟨by decide,
    { conf 4 with
      Concurrency := 2000000000000000000
      MaxClients := -8446744073709551616
      Key := [0]
      Salt := [171] }, by decide, rfl, by decide⟩

/-! ## C8 and C9: the flags and the variables -/

/-- Function `hexFileConfig` on a readable file whose trimmed content decodes: the
target becomes the decoded bytes. -/
theorem hexFileConfig_content (b : Bytes) {fs : FS} {filepath src k : Bytes}
    (hp : filepath ≠ []) (hf : fs filepath = .content src)
    (hd : hexDecode (TrimSpace src) = some k) : hexFileConfig b fs filepath = .ok k := by
  unfold hexFileConfig
  rw [if_neg (by simpa [List.length_eq_zero] using hp), hf]
  simp only [hd]
  rw [List.take_left']
  rfl

/-- Function `hexEnvConfig` on a variable that is empty or decodes does not fail. -/
theorem hexEnvConfig_ok_of_valid (b : Bytes) {env : Env} {name : String}
    (h : Getenv env name = [] ∨ (hexDecode (Getenv env name)).isSome = true) :
    ∃ k1, hexEnvConfig b env name = .ok k1 := by
  unfold hexEnvConfig
  rcases h with h | h
  · rw [h]; exact ⟨b, rfl⟩
  · split
    · cases hd : hexDecode (Getenv env name) with
      | none => rw [hd] at h; cases h
      | some d => exact ⟨d, rfl⟩
    · exact ⟨b, rfl⟩

/-- The Key and the Salt of a started configuration are those that the file
readers returned. -/
theorem init_ok_key_salt {env : Env} {fs : FS} {keypath saltpath : Bytes} {numCPU : Int}
    {c : config} (h : init env fs keypath saltpath numCPU = .ok c) :
    ∃ k1 s1, hexEnvConfig [] env "IMGPROXY_KEY" = .ok k1 ∧
      hexEnvConfig [] env "IMGPROXY_SALT" = .ok s1 ∧
      hexFileConfig k1 fs keypath = .ok c.Key ∧ hexFileConfig s1 fs saltpath = .ok c.Salt := by
  obtain ⟨c0, hl, hv⟩ := init_ok_split h
  obtain ⟨k1, s1, k2, s2, hk1, hs1, hk2, hs2, rfl⟩ := initLoad_ok hl
  obtain ⟨-, -, -, -, -, -, -, -, -, -, -, -, -, rfl⟩ := initValidate_ok hv
  exact ⟨k1, s1, hk1, hs1, hk2, hs2⟩

/-- Counterexample to C8 as stated: `-keypath key` names a readable file
whose trimmed content `00` is valid hexadecimal, and with `IMGPROXY_KEY` unset
the key is its decoding; but with `IMGPROXY_KEY=zz` the process ends in
`hexEnvConfig` before the file is read, and no key is used. -/
theorem init_fatal_env_key_despite_flag :
    fsKeyFile (goStr "key") = .content (goStr "00" ++ [10]) ∧
    hexDecode (TrimSpace (goStr "00" ++ [10])) = some [0] ∧
    init envSaltOnly fsKeyFile (goStr "key") [] 4 =
      .ok { conf 4 with MaxClients := 40, Key := [0], Salt := [171] } ∧
    init envKeyNotHex fsKeyFile (goStr "key") [] 4 = .error (.envNotHex "IMGPROXY_KEY") := by
  decide

/-- C8, amended. A non-empty flag supersedes a variable that is unset, empty
or valid hexadecimal: when `-keypath` names a readable file whose trimmed
content decodes to `k` and `IMGPROXY_KEY` is empty or decodes, the two readers
of the key succeed with `k`, and `k` is the `Key` of every configuration that
`init` starts with; likewise `-saltpath` over `IMGPROXY_SALT`. -/
theorem flag_supersedes_valid_env (env : Env) (fs : FS) (keypath saltpath : Bytes)
    (numCPU : Int) :
    (∀ src k : Bytes, keypath ≠ [] → fs keypath = .content src →
      hexDecode (TrimSpace src) = some k →
      (Getenv env "IMGPROXY_KEY" = [] ∨
        (hexDecode (Getenv env "IMGPROXY_KEY")).isSome = true) →
      (∃ k1, hexEnvConfig [] env "IMGPROXY_KEY" = .ok k1 ∧
        hexFileConfig k1 fs keypath = .ok k) ∧
      ∀ c, init env fs keypath saltpath numCPU = .ok c → c.Key = k) ∧
    (∀ src s : Bytes, saltpath ≠ [] → fs saltpath = .content src →
      hexDecode (TrimSpace src) = some s →
      (Getenv env "IMGPROXY_SALT" = [] ∨
        (hexDecode (Getenv env "IMGPROXY_SALT")).isSome = true) →
      (∃ s1, hexEnvConfig [] env "IMGPROXY_SALT" = .ok s1 ∧
        hexFileConfig s1 fs saltpath = .ok s) ∧
      ∀ c, init env fs keypath saltpath numCPU = .ok c → c.Salt = s) := by
  constructor
  · intro src k hp hf hd henv
    obtain ⟨k1, hk1⟩ := hexEnvConfig_ok_of_valid [] henv
    refine ⟨⟨k1, hk1, hexFileConfig_content k1 hp hf hd⟩, ?_⟩
    intro c hc
    obtain ⟨a, b, ha, -, hka, -⟩ := init_ok_key_salt hc
    rw [hexFileConfig_content a hp hf hd] at hka
    injection hka with hka
    exact hka.symm
  · intro src s hp hf hd henv
    obtain ⟨s1, hs1⟩ := hexEnvConfig_ok_of_valid [] henv
    refine ⟨⟨s1, hs1, hexFileConfig_content s1 hp hf hd⟩, ?_⟩
    intro c hc
    obtain ⟨a, b, -, hb, -, hsb⟩ := init_ok_key_salt hc
    rw [hexFileConfig_content b hp hf hd] at hsb
    injection hsb with hsb
    exact hsb.symm

/-- Witness of C8 as amended: with `IMGPROXY_KEY=ff` and `-keypath key`, the
file holding `00`, `init` starts with the key of the file. -/
theorem flag_supersedes_valid_env_witness :
    init envKeyFF fsKeyFile (goStr "key") [] 4 =
      .ok { conf 4 with MaxClients := 40, Key := [0], Salt := [171] } ∧
    ({ conf 4 with MaxClients := 40, Key := [0], Salt := [171] } : config).Key = [0] :=
  ⟨by decide,
    ((flag_supersedes_valid_env envKeyFF fsKeyFile (goStr "key") [] 4).1
      (goStr "00" ++ [10]) [0] (by decide) (by decide) (by decide) (Or.inr (by decide))).2
      _ (by decide)⟩

/-- C9. Flags override nothing if empty: `hexFileConfig` with an empty path
returns the target unchanged and is not fatal; so with `-keypath` empty the
loaded `Key` is what `hexEnvConfig` produced from `IMGPROXY_KEY`, and the
`Key` of a started configuration is exactly the decoding of `IMGPROXY_KEY`;
likewise for `-saltpath` and `Salt`. -/
theorem empty_flag_keeps_env :
    (∀ (b : Bytes) (fs : FS), hexFileConfig b fs [] = .ok b) ∧
    (∀ (env : Env) (fs : FS) (saltpath : Bytes) (numCPU : Int) (c0 : config),
      initLoad env fs [] saltpath numCPU = .ok c0 →
      hexEnvConfig [] env "IMGPROXY_KEY" = .ok c0.Key) ∧
    (∀ (env : Env) (fs : FS) (keypath : Bytes) (numCPU : Int) (c0 : config),
      initLoad env fs keypath [] numCPU = .ok c0 →
      hexEnvConfig [] env "IMGPROXY_SALT" = .ok c0.Salt) ∧
    (∀ (env : Env) (fs : FS) (saltpath : Bytes) (numCPU : Int) (c : config),
      init env fs [] saltpath numCPU = .ok c →
      hexDecode (Getenv env "IMGPROXY_KEY") = some c.Key) ∧
    (∀ (env : Env) (fs : FS) (keypath : Bytes) (numCPU : Int) (c : config),
      init env fs keypath [] numCPU = .ok c →
      hexDecode (Getenv env "IMGPROXY_SALT") = some c.Salt) := by
  have dec : ∀ (env : Env) (name : String) (k : Bytes), hexEnvConfig [] env name = .ok k →
      k ≠ [] → hexDecode (Getenv env name) = some k := by
    intro env name k h hne
    unfold hexEnvConfig at h
    split at h
    · cases hd : hexDecode (Getenv env name) with
      | none => rw [hd] at h; cases h
      | some d =>
        rw [hd] at h
        injection h with h
        rw [h]
    · injection h with h
      exact absurd h.symm hne
  refine ⟨fun b fs => rfl, ?_, ?_, ?_, ?_⟩
  · intro env fs saltpath numCPU c0 h
    obtain ⟨k1, s1, k2, s2, hk1, -, hk2, -, rfl⟩ := initLoad_ok h
    rw [hexFileConfig_nil] at hk2
    injection hk2 with hk2
    subst hk2
    exact hk1
  · intro env fs keypath numCPU c0 h
    obtain ⟨k1, s1, k2, s2, -, hs1, -, hs2, rfl⟩ := initLoad_ok h
    rw [hexFileConfig_nil] at hs2
    injection hs2 with hs2
    subst hs2
    exact hs1
  · intro env fs saltpath numCPU c h
    have hinv := init_ok_checks h
    obtain ⟨k1, s1, hk1, -, hk2, -⟩ := init_ok_key_salt h
    rw [hexFileConfig_nil] at hk2
    injection hk2 with hk2
    subst hk2
    exact dec env _ _ hk1 hinv.1
  · intro env fs keypath numCPU c h
    have hinv := init_ok_checks h
    obtain ⟨k1, s1, -, hs1, -, hs2⟩ := init_ok_key_salt h
    rw [hexFileConfig_nil] at hs2
    injection hs2 with hs2
    subst hs2
    exact dec env _ _ hs1 hinv.2.1

/-- Witness of C9: with no flags, `init` starts with the key decoded from
`IMGPROXY_KEY=ff`. -/
theorem empty_flag_keeps_env_witness :
    init envKeyFF (fsOf []) [] [] 4 =
      .ok { conf 4 with MaxClients := 40, Key := [255], Salt := [171] } ∧
    hexDecode (Getenv envKeyFF "IMGPROXY_KEY") = some [255] :=
  ⟨by decide,
    empty_flag_keeps_env.2.2.2.1 envKeyFF (fsOf []) [] 4
      { conf 4 with MaxClients := 40, Key := [255], Salt := [171] } (by decide)⟩

/-! ## C10: hexadecimal files with surrounding white space -/

/-- The decoder reads back the digit that the encoder writes. -/
theorem fromHexChar_hexDigit {v : Nat} (h : v < 16) : fromHexChar (hexDigit v) = some v := by
  unfold fromHexChar hexDigit
  split_ifs <;> first | omega | (congr 1; omega)

/-- Decoding undoes encoding, for bytes below 256. -/
theorem hexDecode_EncodeToString (b : Bytes) (hb : ∀ x ∈ b, x < 256) :
    hexDecode (EncodeToString b) = some b := by
  induction b with
  | nil => rfl
  | cons v vs ih =>
    have hv : v < 256 := hb v (List.mem_cons_self v vs)
    have ih2 := ih (fun x hx => hb x (List.mem_cons_of_mem v hx))
    simp only [EncodeToString, hexDecode]
    rw [fromHexChar_hexDigit (by omega : v / 16 < 16),
      fromHexChar_hexDigit (by omega : v % 16 < 16), ih2]
    simp only [Option.some.injEq, List.cons.injEq, and_true]
    omega

/-- The decoder does not distinguish the case of a digit. -/
theorem fromHexChar_toLowerByte (c : Nat) : fromHexChar (toLowerByte c) = fromHexChar c := by
  unfold fromHexChar toLowerByte
  split_ifs <;> first | rfl | omega

/-- Decoding does not distinguish the case of the digits. -/
theorem hexDecode_map_toLowerByte (h : Bytes) :
    hexDecode (h.map toLowerByte) = hexDecode h := by
  have key : ∀ (n : Nat) (h : Bytes), h.length ≤ n →
      hexDecode (h.map toLowerByte) = hexDecode h := by
    intro n
    induction n with
    | zero =>
      intro h hl
      have : h = [] := List.length_eq_zero.mp (Nat.le_zero.mp hl)
      subst this
      rfl
    | succ n ih =>
      intro h hl
      match h, hl with
      | [], _ => rfl
      | [_], _ => rfl
      | p :: q :: rest, hl =>
        simp only [List.map, hexDecode, fromHexChar_toLowerByte]
        rw [ih rest (by simp only [List.length_cons] at hl; omega)]
  exact key h.length h (Nat.le_refl _)

/-- Every byte of a string that decodes is a hexadecimal digit. -/
theorem fromHexChar_isSome_of_hexDecode (h : Bytes) :
    ∀ b, hexDecode h = some b → ∀ c ∈ h, (fromHexChar c).isSome = true := by
  have key : ∀ (n : Nat) (h : Bytes), h.length ≤ n →
      ∀ b, hexDecode h = some b → ∀ c ∈ h, (fromHexChar c).isSome = true := by
    intro n
    induction n with
    | zero =>
      intro h hl b _ c hc
      have : h = [] := List.length_eq_zero.mp (Nat.le_zero.mp hl)
      subst this
      cases hc
    | succ n ih =>
      intro h hl b hd c hc
      match h, hl, hd, hc with
      | [], _, _, hc => cases hc
      | [_], _, hd, _ => simp [hexDecode] at hd
      | p :: q :: rest, hl, hd, hc =>
        simp only [hexDecode] at hd
        cases hp : fromHexChar p with
        | none => rw [hp] at hd; simp at hd
        | some a =>
          cases hq : fromHexChar q with
          | none => rw [hp, hq] at hd; simp at hd
          | some a2 =>
            rw [hp, hq] at hd
            simp only at hd
            cases hr : hexDecode rest with
            | none => rw [hr] at hd; simp at hd
            | some r =>
              rcases List.mem_cons.mp hc with rfl | hc
              · rw [hp]; rfl
              · rcases List.mem_cons.mp hc with rfl | hc
                · rw [hq]; rfl
                · exact ih rest (by simp only [List.length_cons] at hl; omega) r hr c hc
  exact key h.length h (Nat.le_refl _)

/-- A hexadecimal digit is an ASCII byte that is no white space. -/
theorem hex_byte_bounds {c : Nat} (h : (fromHexChar c).isSome = true) : 48 ≤ c ∧ c ≤ 102 := by
  unfold fromHexChar at h
  split_ifs at h <;> first | omega | cases h

/-- No white-space rune starts with a hexadecimal digit. -/
theorem dropSpaceRune_hex {c : Nat} (rest : Bytes) (h : (fromHexChar c).isSome = true) :
    dropSpaceRune (c :: rest) = none := by
  have hc := hex_byte_bounds h
  have ha : asciiSpace c = false := by
    unfold asciiSpace
    simp only [Bool.or_eq_false_iff, decide_eq_false_iff_not]
    omega
  simp only [dropSpaceRune, ha, Bool.false_eq_true, if_false]
  rw [if_neg (by omega), if_neg (by omega), if_neg (by omega), if_neg (by omega)]

/-- No white-space rune ends with a hexadecimal digit. -/
theorem dropSpaceRuneRev_hex {c : Nat} (rest : Bytes) (h : (fromHexChar c).isSome = true) :
    dropSpaceRuneRev (c :: rest) = none := by
  have hc := hex_byte_bounds h
  have ha : asciiSpace c = false := by
    unfold asciiSpace
    simp only [Bool.or_eq_false_iff, decide_eq_false_iff_not]
    omega
  match rest with
  | [] => simp only [dropSpaceRuneRev, ha, Bool.false_eq_true, if_false]
  | [d] =>
    simp only [dropSpaceRuneRev, ha, Bool.false_eq_true, if_false]
    rw [if_neg (by omega)]
  | d :: e :: r2 =>
    simp only [dropSpaceRuneRev, ha, Bool.false_eq_true, if_false]
    rw [if_neg (by omega), if_neg (by omega), if_neg (by omega), if_neg (by omega),
      if_neg (by omega)]

/-- A white-space rune has at least one byte (leading). -/
theorem dropSpaceRune_length {s r : Bytes} (h : dropSpaceRune s = some r) :
    r.length < s.length := by
  unfold dropSpaceRune at h
  split at h
  · cases h
  · split_ifs at h
    · injection h with h; subst h; simp
    · split at h
      · split_ifs at h
        injection h with h; subst h; simp; omega
      · cases h
    · split at h
      · split_ifs at h
        injection h with h; subst h; simp; omega
      · cases h
    · split at h
      · split_ifs at h
        · injection h with h; subst h; simp; omega
        · injection h with h; subst h; simp; omega
      · cases h
    · split at h
      · split_ifs at h
        injection h with h; subst h; simp; omega
      · cases h

/-- A white-space rune has at least one byte (trailing). -/
theorem dropSpaceRuneRev_length {s r : Bytes} (h : dropSpaceRuneRev s = some r) :
    r.length < s.length := by
  unfold dropSpaceRuneRev at h
  split at h
  · cases h
  · split_ifs at h
    · injection h with h; subst h; simp
    · split at h
      · split_ifs at h
        · injection h with h; subst h; simp; omega
        · split at h
          · split_ifs at h <;> (injection h with h; subst h; simp; omega)
          · cases h
      · cases h

/-- The length of the string is fuel enough: what `trimLeftFuel` returns
starts with no white-space rune. -/
theorem dropSpaceRune_trimLeftFuel (n : Nat) :
    ∀ s : Bytes, s.length ≤ n → dropSpaceRune (trimLeftFuel n s) = none := by
  induction n with
  | zero =>
    intro s hs
    have : s = [] := List.length_eq_zero.mp (Nat.le_zero.mp hs)
    subst this
    rfl
  | succ n ih =>
    intro s hs
    cases hd : dropSpaceRune s with
    | none => simp only [trimLeftFuel, hd]
    | some r =>
      simp only [trimLeftFuel, hd]
      exact ih r (by have := dropSpaceRune_length hd; omega)

/-- The length of the string is fuel enough: what `trimRightFuel` returns
ends with no white-space rune. -/
theorem dropSpaceRuneRev_trimRightFuel (n : Nat) :
    ∀ s : Bytes, s.length ≤ n → dropSpaceRuneRev (trimRightFuel n s) = none := by
  induction n with
  | zero =>
    intro s hs
    have : s = [] := List.length_eq_zero.mp (Nat.le_zero.mp hs)
    subst this
    rfl
  | succ n ih =>
    intro s hs
    cases hd : dropSpaceRuneRev s with
    | none => simp only [trimRightFuel, hd]
    | some r =>
      simp only [trimRightFuel, hd]
      exact ih r (by have := dropSpaceRuneRev_length hd; omega)

/-- Leading ASCII white space is removed, given fuel for it, up to a string
that starts with no white-space rune. -/
theorem trimLeftFuel_spaces (ws rest : Bytes) (hws : ∀ c ∈ ws, asciiSpace c = true)
    (hrest : dropSpaceRune rest = none) :
    ∀ n, ws.length ≤ n → trimLeftFuel n (ws ++ rest) = rest := by
  induction ws with
  | nil =>
    intro n _
    cases n with
    | zero => rfl
    | succ n => simp only [List.nil_append, trimLeftFuel, hrest]
  | cons w ws ih =>
    intro n hn
    cases n with
    | zero => simp at hn
    | succ n =>
      have hw : asciiSpace w = true := hws w (List.mem_cons_self w ws)
      have hd : dropSpaceRune (w :: (ws ++ rest)) = some (ws ++ rest) := by
        simp only [dropSpaceRune, hw, if_true]
      simp only [List.cons_append, trimLeftFuel, hd]
      exact ih (fun c hc => hws c (List.mem_cons_of_mem w hc)) n
        (by simp only [List.length_cons] at hn; omega)

/-- Trailing ASCII white space is removed, given fuel for it, up to a string
that ends with no white-space rune (strings reversed). -/
theorem trimRightFuel_spaces (ws rest : Bytes) (hws : ∀ c ∈ ws, asciiSpace c = true)
    (hrest : dropSpaceRuneRev rest = none) :
    ∀ n, ws.length ≤ n → trimRightFuel n (ws ++ rest) = rest := by
  induction ws with
  | nil =>
    intro n _
    cases n with
    | zero => rfl
    | succ n => simp only [List.nil_append, trimRightFuel, hrest]
  | cons w ws ih =>
    intro n hn
    cases n with
    | zero => simp at hn
    | succ n =>
      have hw : asciiSpace w = true := hws w (List.mem_cons_self w ws)
      have hd : dropSpaceRuneRev (w :: (ws ++ rest)) = some (ws ++ rest) := by
        simp only [dropSpaceRuneRev, hw, if_true]
      simp only [List.cons_append, trimRightFuel, hd]
      exact ih (fun c hc => hws c (List.mem_cons_of_mem w hc)) n
        (by simp only [List.length_cons] at hn; omega)

/-- Go `bytes.TrimSpace` removes ASCII white space around a string of
hexadecimal digits, and nothing else. -/
theorem TrimSpace_around_hex (ws1 h ws2 : Bytes) (h1 : ∀ c ∈ ws1, asciiSpace c = true)
    (h2 : ∀ c ∈ ws2, asciiSpace c = true) (hh : ∀ c ∈ h, (fromHexChar c).isSome = true) :
    TrimSpace (ws1 ++ h ++ ws2) = h := by
  unfold TrimSpace
  rcases List.eq_nil_or_concat h with rfl | ⟨t, d, ht⟩
  rotate_left
  · rw [List.concat_eq_append] at ht
    subst ht
    have hl : dropSpaceRune (t ++ [d] ++ ws2) = none := by
      cases t with
      | nil => exact dropSpaceRune_hex _ (hh d (by simp))
      | cons x xs => exact dropSpaceRune_hex _ (hh x (by simp))
    have e : ws1 ++ (t ++ [d]) ++ ws2 = ws1 ++ (t ++ [d] ++ ws2) := by simp
    rw [e, trimLeftFuel_spaces ws1 (t ++ [d] ++ ws2) h1 hl _ (by simp)]
    have er : (t ++ [d] ++ ws2).reverse = ws2.reverse ++ (d :: t.reverse) := by simp
    simp only
    rw [er, trimRightFuel_spaces ws2.reverse (d :: t.reverse)
      (fun c hc => h2 c (List.mem_reverse.mp hc))
      (dropSpaceRuneRev_hex _ (hh d (by simp))) _ (by simp; omega)]
    simp
  · have e : ws1 ++ [] ++ ws2 = (ws1 ++ ws2) ++ [] := by simp
    rw [e, trimLeftFuel_spaces (ws1 ++ ws2) [] (by
      intro c hc
      rcases List.mem_append.mp hc with hc | hc
      · exact h1 c hc
      · exact h2 c hc) rfl _ (by simp)]
    rfl

/-- C10. For every byte string `b` (bytes below 256), every string `h` that is
the hexadecimal encoding of `b` in lower- or upper-case digits, and every
leading and trailing run of ASCII white space (space, tab, CR, LF, and also VT
and FF), a file whose content is that white space around `h` makes
`hexFileConfig` set the target to exactly `b`, of length `len(b)`, whatever
the white space and the previous target. -/
theorem hexFileConfig_trimmed_hex (tgt b ws1 h ws2 : Bytes) (fs : FS) (filepath : Bytes)
    (hb : ∀ x ∈ b, x < 256) (h1 : ∀ c ∈ ws1, asciiSpace c = true)
    (h2 : ∀ c ∈ ws2, asciiSpace c = true) (hh : h.map toLowerByte = EncodeToString b)
    (hp : filepath ≠ []) (hf : fs filepath = .content (ws1 ++ h ++ ws2)) :
    hexFileConfig tgt fs filepath = .ok b ∧
    (hexFileConfig tgt fs filepath).toOption.map List.length = some b.length := by
  have hd : hexDecode h = some b := by
    rw [← hexDecode_map_toLowerByte, hh, hexDecode_EncodeToString b hb]
  have ht : TrimSpace (ws1 ++ h ++ ws2) = h :=
    TrimSpace_around_hex ws1 h ws2 h1 h2 (fromHexChar_isSome_of_hexDecode h b hd)
  have hr : hexFileConfig tgt fs filepath = .ok b :=
    hexFileConfig_content tgt hp hf (by rw [ht]; exact hd)
  rw [hr]
  exact ⟨rfl, rfl⟩

/-- Witness of C10: the file ` \t0aFf\r\n` sets the target to the bytes
`0x0a 0xff`. -/
theorem hexFileConfig_trimmed_hex_witness :
    (goStr "0aFf").map toLowerByte = EncodeToString [10, 255] ∧
    hexFileConfig [1, 2, 3] fsPaddedKeyFile (goStr "key") = .ok [10, 255] ∧
    (hexFileConfig [1, 2, 3] fsPaddedKeyFile (goStr "key")).toOption.map List.length =
      some [10, 255].length :=
  ⟨by decide,
    hexFileConfig_trimmed_hex [1, 2, 3] [10, 255] [32, 9] (goStr "0aFf") [13, 10]
      fsPaddedKeyFile (goStr "key") (by decide) (by decide) (by decide) (by decide)
      (by decide) (by decide)⟩

/-! ## C11: an empty listen address is rejected -/

/-- C11. The checks of `init` reject every configuration whose `Bind` is the
empty string; the check comes after those of the key and the salt and before
the timeouts, so with a key and a salt the error is "Bind address is not
defined" whatever the numbers are. -/
theorem initValidate_fatal_of_empty_bind (c : config) (hb : c.Bind = []) :
    (∃ e, initValidate c = .error e) ∧
    (c.Key = [] → initValidate c = .error .keyNotDefined) ∧
    (c.Key ≠ [] → c.Salt = [] → initValidate c = .error .saltNotDefined) ∧
    (c.Key ≠ [] → c.Salt ≠ [] → initValidate c = .error .bindNotDefined) := by
  refine ⟨?_, ?_, ?_, ?_⟩
  · apply fatal_of_not_ok
    intro c1 h1
    exact (initValidate_ok h1).2.2.1 hb
  · intro hk
    unfold initValidate
    rw [if_pos (by simp [hk])]
  · intro hk hs
    unfold initValidate
    rw [if_neg (by simpa [List.length_eq_zero] using hk), if_pos (by simp [hs])]
  · intro hk hs
    unfold initValidate
    rw [if_neg (by simpa [List.length_eq_zero] using hk),
      if_neg (by simpa [List.length_eq_zero] using hs), if_pos (by simp [hb])]

/-- Witness of C11: a configuration with key and salt and an empty `Bind`. -/
theorem initValidate_fatal_of_empty_bind_witness :
    confNoBind.Bind = [] ∧ initValidate confNoBind = .error .bindNotDefined :=
  ⟨by decide,
    (initValidate_fatal_of_empty_bind confNoBind (by decide)).2.2.2 (by decide) (by decide)⟩

/-! ## C13: an explicit `MaxClients` is kept -/

/-- C13. In every successful start in which `IMGPROXY_MAX_CLIENTS` parses to
an integer `n > 0`, the resulting `MaxClients` is `n`, whatever `Concurrency`
is. -/
theorem init_ok_maxClients_explicit (env : Env) (fs : FS) (keypath saltpath : Bytes)
    (numCPU : Int) (c : config) (n : Int)
    (h : init env fs keypath saltpath numCPU = .ok c)
    (hparse : Atoi (Getenv env "IMGPROXY_MAX_CLIENTS") = some n) (hn : 0 < n) :
    c.MaxClients = n := by
  have hi : intEnvConfig 0 env "IMGPROXY_MAX_CLIENTS" = n := by
    unfold intEnvConfig
    rw [hparse]
  rw [init_ok_maxClients h, hi, if_neg (by omega)]

/-- Witness of C13: with `IMGPROXY_MAX_CLIENTS=1` on four CPUs, `init` starts
with one client, below the concurrency of 8 and not 40. -/
theorem init_ok_maxClients_explicit_witness :
    init envOneClient (fsOf []) [] [] 4 =
      .ok { conf 4 with MaxClients := 1, Key := [0], Salt := [171] } ∧
    ({ conf 4 with MaxClients := 1, Key := [0], Salt := [171] } : config).Concurrency = 8 ∧
    ({ conf 4 with MaxClients := 1, Key := [0], Salt := [171] } : config).MaxClients = 1 :=
  ⟨by decide, by decide,
    init_ok_maxClients_explicit envOneClient (fsOf []) [] [] 4
      { conf 4 with MaxClients := 1, Key := [0], Salt := [171] } 1 (by decide) (by decide)
      (by decide)⟩

/-! ## C12: hexadecimal variables -/

/-- A string that decodes has an even length. -/
theorem hexDecode_even (h : Bytes) : ∀ b, hexDecode h = some b → h.length % 2 = 0 := by
  have key : ∀ (n : Nat) (h : Bytes), h.length ≤ n →
      ∀ b, hexDecode h = some b → h.length % 2 = 0 := by
    intro n
    induction n with
    | zero =>
      intro h hl b _
      have : h = [] := List.length_eq_zero.mp (Nat.le_zero.mp hl)
      subst this
      rfl
    | succ n ih =>
      intro h hl b hd
      match h, hl, hd with
      | [], _, _ => rfl
      | [_], _, hd => simp [hexDecode] at hd
      | p :: q :: rest, hl, hd =>
        simp only [hexDecode] at hd
        cases hp : fromHexChar p with
        | none => rw [hp] at hd; simp at hd
        | some a =>
          cases hq : fromHexChar q with
          | none => rw [hp, hq] at hd; simp at hd
          | some a2 =>
            rw [hp, hq] at hd
            simp only at hd
            cases hr : hexDecode rest with
            | none => rw [hr] at hd; simp at hd
            | some r =>
              have := ih rest (by simp only [List.length_cons] at hl; omega) r hr
              simp only [List.length_cons]
              omega
  exact key h.length h (Nat.le_refl _)

/-- A string that is no valid hexadecimal string does not decode. -/
theorem hexDecode_none_of_notHex {s : Bytes} (h : notHex s) : hexDecode s = none := by
  cases hd : hexDecode s with
  | none => rfl
  | some b =>
    rcases h with h | ⟨c, hc, hn⟩
    · have := hexDecode_even s b hd
      omega
    · have := fromHexChar_isSome_of_hexDecode s b hd c hc
      rw [hn] at this
      cases this

/-- A string of even length whose bytes are hexadecimal digits decodes. -/
theorem hexDecode_isSome_of_not_notHex (s : Bytes) (h : ¬ notHex s) :
    (hexDecode s).isSome = true := by
  have key : ∀ (n : Nat) (s : Bytes), s.length ≤ n → ¬ notHex s →
      (hexDecode s).isSome = true := by
    intro n
    induction n with
    | zero =>
      intro s hl _
      have : s = [] := List.length_eq_zero.mp (Nat.le_zero.mp hl)
      subst this
      rfl
    | succ n ih =>
      intro s hl hs
      match s, hl, hs with
      | [], _, _ => rfl
      | [_], _, hs => exact absurd (Or.inl rfl) hs
      | p :: q :: rest, hl, hs =>
        have hrest : ¬ notHex rest := by
          rintro (ho | ⟨c, hc, hn⟩)
          · exact hs (Or.inl (by simp only [List.length_cons]; omega))
          · exact hs (Or.inr ⟨c, List.mem_cons_of_mem p (List.mem_cons_of_mem q hc), hn⟩)
        have hr := ih rest (by simp only [List.length_cons] at hl; omega) hrest
        cases hp : fromHexChar p with
        | none => exact absurd (Or.inr ⟨p, List.mem_cons_self p _, hp⟩) hs
        | some a =>
          cases hq : fromHexChar q with
          | none =>
            exact absurd (Or.inr ⟨q, List.mem_cons_of_mem p (List.mem_cons_self q _), hq⟩) hs
          | some a2 =>
            cases hd : hexDecode rest with
            | none => rw [hd] at hr; cases hr
            | some r => simp only [hexDecode, hp, hq, hd]; rfl
  exact key s.length s (Nat.le_refl _) h

/-- Function `hexEnvConfig` on a variable that is not empty and no valid
hexadecimal string is fatal. -/
theorem hexEnvConfig_notHex (b : Bytes) {env : Env} {name : String}
    (hne : Getenv env name ≠ []) (hbad : notHex (Getenv env name)) :
    hexEnvConfig b env name = .error (.envNotHex name) := by
  unfold hexEnvConfig
  rw [if_pos (List.length_pos.mpr hne), hexDecode_none_of_notHex hbad]

/-- Function `hexEnvConfig`, from an empty target, on a variable that holds
a hexadecimal encoding of `b` in either case of the digits. -/
theorem hexEnvConfig_encoded {env : Env} {name : String} {b h : Bytes}
    (hb : ∀ x ∈ b, x < 256) (hh : h.map toLowerByte = EncodeToString b)
    (henv : env name = some h) : hexEnvConfig [] env name = .ok b := by
  have hd : hexDecode h = some b := by
    rw [← hexDecode_map_toLowerByte, hh, hexDecode_EncodeToString b hb]
  have hg : Getenv env name = h := by simp [Getenv, henv]
  unfold hexEnvConfig
  rw [hg]
  by_cases hl : h.length > 0
  · rw [if_pos hl, hd]
  · rw [if_neg hl]
    have : h = [] := List.length_eq_zero.mp (by omega)
    subst this
    simp only [hexDecode, Option.some.injEq] at hd
    rw [hd]

/-- C12. With `-keypath` empty and `IMGPROXY_KEY` set to the hexadecimal
encoding of `b` (bytes below 256, digits in either case), `hexEnvConfig`
produces `b` and `b` is the loaded `Key`; the same for `IMGPROXY_SALT`,
`-saltpath` and `Salt`. And when `IMGPROXY_KEY` or `IMGPROXY_SALT` is not empty
and no valid hexadecimal string (odd length or a byte that is no hexadecimal
digit), `init` ends in a fatal error. -/
theorem hexEnv_decoding (env : Env) (fs : FS) (keypath saltpath : Bytes) (numCPU : Int) :
    (∀ b h : Bytes, (∀ x ∈ b, x < 256) → h.map toLowerByte = EncodeToString b →
      env "IMGPROXY_KEY" = some h → keypath = [] →
      hexEnvConfig [] env "IMGPROXY_KEY" = .ok b ∧
      ∀ c0, initLoad env fs keypath saltpath numCPU = .ok c0 → c0.Key = b) ∧
    (∀ b h : Bytes, (∀ x ∈ b, x < 256) → h.map toLowerByte = EncodeToString b →
      env "IMGPROXY_SALT" = some h → saltpath = [] →
      hexEnvConfig [] env "IMGPROXY_SALT" = .ok b ∧
      ∀ c0, initLoad env fs keypath saltpath numCPU = .ok c0 → c0.Salt = b) ∧
    (Getenv env "IMGPROXY_KEY" ≠ [] → notHex (Getenv env "IMGPROXY_KEY") →
      init env fs keypath saltpath numCPU = .error (.envNotHex "IMGPROXY_KEY")) ∧
    (Getenv env "IMGPROXY_SALT" ≠ [] → notHex (Getenv env "IMGPROXY_SALT") →
      ∃ e, init env fs keypath saltpath numCPU = .error e) := by
  refine ⟨?_, ?_, ?_, ?_⟩
  · intro b h hb hh henv hp
    have he := hexEnvConfig_encoded hb hh henv
    refine ⟨he, ?_⟩
    intro c0 hl
    subst hp
    obtain ⟨k1, s1, k2, s2, hk1, -, hk2, -, rfl⟩ := initLoad_ok hl
    rw [he] at hk1
    injection hk1 with hk1
    subst hk1
    rw [hexFileConfig_nil] at hk2
    injection hk2 with hk2
    exact hk2.symm
  · intro b h hb hh henv hp
    have he := hexEnvConfig_encoded hb hh henv
    refine ⟨he, ?_⟩
    intro c0 hl
    subst hp
    obtain ⟨k1, s1, k2, s2, -, hs1, -, hs2, rfl⟩ := initLoad_ok hl
    rw [he] at hs1
    injection hs1 with hs1
    subst hs1
    rw [hexFileConfig_nil] at hs2
    injection hs2 with hs2
    exact hs2.symm
  · intro hne hbad
    apply init_of_load_error
    rw [initLoad_eq, hexEnvConfig_notHex [] hne hbad]
  · intro hne hbad
    apply fatal_of_not_ok
    intro c hc
    obtain ⟨k1, s1, -, hs1, -, -⟩ := init_ok_key_salt hc
    rw [hexEnvConfig_notHex [] hne hbad] at hs1
    cases hs1

/-- Witness of C12: `IMGPROXY_KEY=0aFf` loads the key `0x0a 0xff`, and a salt
of three digits is fatal. -/
theorem hexEnv_decoding_witness :
    (hexEnvConfig [] envKeyMixedCase "IMGPROXY_KEY" = .ok [10, 255] ∧
      ∀ c0, initLoad envKeyMixedCase (fsOf []) [] [] 4 = .ok c0 → c0.Key = [10, 255]) ∧
    initLoad envKeyMixedCase (fsOf []) [] [] 4 =
      .ok { conf 4 with Key := [10, 255], Salt := [171] } ∧
    ∃ e, init envSaltOdd (fsOf []) [] [] 4 = .error e :=
  ⟨(hexEnv_decoding envKeyMixedCase (fsOf []) [] [] 4).1 [10, 255] (goStr "0aFf")
      (by decide) (by decide) (by decide) rfl,
    by decide,
    (hexEnv_decoding envSaltOdd (fsOf []) [] [] 4).2.2.2 (by decide) (by decide)⟩

/-! ## C14: the listen address is never empty -/

/-- Function `strEnvConfig` keeps a target that is not empty from becoming empty. -/
theorem strEnvConfig_ne_nil {s : Bytes} (env : Env) (name : String) (hs : s ≠ []) :
    strEnvConfig s env name ≠ [] := by
  unfold strEnvConfig
  split
  · rename_i h
    exact List.length_pos.mp h
  · exact hs

/-- Function `strEnvConfig` returns the variable's value or the target. -/
theorem strEnvConfig_cases (s : Bytes) (env : Env) (name : String) :
    strEnvConfig s env name = s ∨ env name = some (strEnvConfig s env name) := by
  unfold strEnvConfig
  split
  · rename_i h
    right
    unfold Getenv at h ⊢
    cases he : env name with
    | none => rw [he] at h; simp at h
    | some v => rfl
  · left; rfl

/-- The only fatal error of `hexEnvConfig` is that of a value that does not decode. -/
theorem hexEnvConfig_error {b : Bytes} {env : Env} {name : String} {e : Fatal}
    (h : hexEnvConfig b env name = .error e) : e = .envNotHex name := by
  unfold hexEnvConfig at h
  split at h
  · split at h
    · cases h
    · injection h with h
      exact h.symm
  · cases h

/-- The fatal errors of `hexFileConfig` are those of opening, reading and decoding. -/
theorem hexFileConfig_error {b : Bytes} {fs : FS} {filepath : Bytes} {e : Fatal}
    (h : hexFileConfig b fs filepath = .error e) :
    e = .cantOpenFile filepath ∨ e = .readFailed ∨ e = .fileNotHex filepath := by
  unfold hexFileConfig at h
  split at h
  · cases h
  · split at h
    · injection h with h
      exact Or.inl h.symm
    · injection h with h
      exact Or.inr (Or.inl h.symm)
    · simp only at h
      split at h
      · cases h
      · injection h with h
        exact Or.inr (Or.inr h.symm)

/-- The fatal errors of the loading steps are those of the four hexadecimal readers. -/
theorem initLoad_error {env : Env} {fs : FS} {keypath saltpath : Bytes} {numCPU : Int}
    {e : Fatal} (h : initLoad env fs keypath saltpath numCPU = .error e) :
    (∃ name, e = .envNotHex name) ∨ (∃ path, e = .cantOpenFile path) ∨ e = .readFailed ∨
    (∃ path, e = .fileNotHex path) := by
  have hf : ∀ {b : Bytes} {path : Bytes}, hexFileConfig b fs path = .error e →
      (∃ name, e = .envNotHex name) ∨ (∃ path, e = .cantOpenFile path) ∨ e = .readFailed ∨
      (∃ path, e = .fileNotHex path) := by
    intro b path hb
    rcases hexFileConfig_error hb with h1 | h1 | h1
    · exact Or.inr (Or.inl ⟨_, h1⟩)
    · exact Or.inr (Or.inr (Or.inl h1))
    · exact Or.inr (Or.inr (Or.inr ⟨_, h1⟩))
  rw [initLoad_eq] at h
  split at h
  · rename_i e1 h1
    injection h with h
    subst h
    exact Or.inl ⟨_, hexEnvConfig_error h1⟩
  split at h
  · rename_i e1 h1
    injection h with h
    subst h
    exact Or.inl ⟨_, hexEnvConfig_error h1⟩
  split at h
  · rename_i e1 h1
    injection h with h
    subst h
    exact hf h1
  split at h
  · rename_i e1 h1
    injection h with h
    subst h
    exact hf h1
  cases h

/-- The checks end with "Bind address is not defined" only when `Bind` is empty. -/
theorem initValidate_bindNotDefined {c : config}
    (h : initValidate c = .error .bindNotDefined) : c.Bind = [] := by
  unfold initValidate at h
  by_cases h1 : c.Key.length = 0
  · rw [if_pos h1] at h; cases h
  rw [if_neg h1] at h
  by_cases h2 : c.Salt.length = 0
  · rw [if_pos h2] at h; cases h
  rw [if_neg h2] at h
  by_cases h3 : c.Bind.length = 0
  · exact List.length_eq_zero.mp h3
  rw [if_neg h3] at h
  by_cases h4 : c.ReadTimeout ≤ 0
  · rw [if_pos h4] at h; cases h
  rw [if_neg h4] at h
  by_cases h5 : c.WriteTimeout ≤ 0
  · rw [if_pos h5] at h; cases h
  rw [if_neg h5] at h
  by_cases h6 : c.DownloadTimeout ≤ 0
  · rw [if_pos h6] at h; cases h
  rw [if_neg h6] at h
  by_cases h7 : c.Concurrency ≤ 0
  · rw [if_pos h7] at h; cases h
  rw [if_neg h7] at h
  generalize (if c.MaxClients ≤ 0 then
    { c with MaxClients := wrapInt (c.Concurrency * 5) } else c) = c1 at h
  simp only at h
  by_cases h8 : c1.TTL ≤ 0
  · rw [if_pos h8] at h; cases h
  rw [if_neg h8] at h
  by_cases h9 : c1.MaxSrcDimension ≤ 0
  · rw [if_pos h9] at h; cases h
  rw [if_neg h9] at h
  by_cases h10 : c1.Quality ≤ 0
  · rw [if_pos h10] at h; cases h
  rw [if_neg h10] at h
  by_cases h11 : c1.Quality > 100
  · rw [if_pos h11] at h; cases h
  rw [if_neg h11] at h
  by_cases h12 : c1.GZipCompression < 0
  · rw [if_pos h12] at h; cases h
  rw [if_neg h12] at h
  by_cases h13 : c1.GZipCompression > 9
  · rw [if_pos h13] at h; cases h
  rw [if_neg h13] at h
  cases h

/-- The listen address after the loading steps is not empty. -/
theorem initLoad_bind_ne_nil {env : Env} {fs : FS} {keypath saltpath : Bytes} {numCPU : Int}
    {c0 : config} (h : initLoad env fs keypath saltpath numCPU = .ok c0) : c0.Bind ≠ [] := by
  obtain ⟨k1, s1, k2, s2, -, -, -, -, rfl⟩ := initLoad_ok h
  exact strEnvConfig_ne_nil env _ (by decide)

/-- C14. An empty `IMGPROXY_BIND` is treated as unset: the listen address
stays `":8080"`; a non-empty value replaces it. So after the loading steps
`Bind` is never empty (it is `":8080"` or the variable's non-empty value), and
`init` never ends with "Bind address is not defined". -/
theorem bind_never_empty (env : Env) (fs : FS) (keypath saltpath : Bytes) (numCPU : Int) :
    (env "IMGPROXY_BIND" = none ∨ env "IMGPROXY_BIND" = some [] →
      strEnvConfig (goStr ":8080") env "IMGPROXY_BIND" = goStr ":8080") ∧
    (∀ v, v ≠ [] → env "IMGPROXY_BIND" = some v →
      strEnvConfig (goStr ":8080") env "IMGPROXY_BIND" = v) ∧
    (∀ c0, initLoad env fs keypath saltpath numCPU = .ok c0 →
      c0.Bind = strEnvConfig (goStr ":8080") env "IMGPROXY_BIND" ∧ c0.Bind ≠ [] ∧
      (c0.Bind = goStr ":8080" ∨ env "IMGPROXY_BIND" = some c0.Bind)) ∧
    init env fs keypath saltpath numCPU ≠ .error .bindNotDefined := by
  refine ⟨?_, ?_, ?_, ?_⟩
  · intro h
    rcases h with h | h <;> simp [strEnvConfig, Getenv, h]
  · intro v hv h
    have : 0 < v.length := List.length_pos.mpr hv
    simp [strEnvConfig, Getenv, h, this]
  · intro c0 h
    have hne := initLoad_bind_ne_nil h
    obtain ⟨k1, s1, k2, s2, -, -, -, -, rfl⟩ := initLoad_ok h
    exact ⟨rfl, hne, strEnvConfig_cases _ env _⟩
  · intro h
    cases hl : initLoad env fs keypath saltpath numCPU with
    | error e =>
      rw [init_of_load_error hl] at h
      injection h with h
      subst h
      rcases initLoad_error hl with ⟨_, h1⟩ | ⟨_, h1⟩ | h1 | ⟨_, h1⟩ <;> cases h1
    | ok c0 =>
      rw [init_of_load_ok hl] at h
      exact initLoad_bind_ne_nil hl (initValidate_bindNotDefined h)

/-- Witness of C14: with `IMGPROXY_BIND` set to the empty string, `init`
starts and listens on `":8080"`. -/
theorem bind_never_empty_witness :
    envBindEmpty "IMGPROXY_BIND" = some [] ∧
    strEnvConfig (goStr ":8080") envBindEmpty "IMGPROXY_BIND" = goStr ":8080" ∧
    init envBindEmpty (fsOf []) [] [] 4 =
      .ok { conf 4 with MaxClients := 40, Key := [0], Salt := [171] } :=
  ⟨by decide,
    (bind_never_empty envBindEmpty (fsOf []) [] [] 4).1 (Or.inr (by decide)),
    by decide⟩

/-! ## C15: `init` fails only for the checked reasons -/

/-- C15. When the loading steps succeed (the hexadecimal variables decode and
the files are read), the loaded `Key` and `Salt` are not empty, the loaded
`ReadTimeout`, `WriteTimeout`, `DownloadTimeout`, `Concurrency`, `TTL` and
`MaxSrcDimension` are positive, `Quality` is in `[1,100]` and `GZipCompression`
in `[0,9]`, then `init` reaches `initVips` without a fatal error, whatever
`IMGPROXY_MAX_CLIENTS` and `IMGPROXY_SECRET` are; the configuration is the
loaded one, with `MaxClients` derived when it is not positive. -/
theorem init_ok_of_valid_load (env : Env) (fs : FS) (keypath saltpath : Bytes)
    (numCPU : Int) (c0 : config)
    (hload : initLoad env fs keypath saltpath numCPU = .ok c0)
    (hk : c0.Key ≠ []) (hs : c0.Salt ≠ []) (h4 : 0 < c0.ReadTimeout)
    (h5 : 0 < c0.WriteTimeout) (h6 : 0 < c0.DownloadTimeout) (h7 : 0 < c0.Concurrency)
    (h8 : 0 < c0.TTL) (h9 : 0 < c0.MaxSrcDimension) (h10 : 1 ≤ c0.Quality)
    (h11 : c0.Quality ≤ 100) (h12 : 0 ≤ c0.GZipCompression) (h13 : c0.GZipCompression ≤ 9) :
    init env fs keypath saltpath numCPU = .ok { c0 with
      MaxClients :=
        if c0.MaxClients ≤ 0 then wrapInt (c0.Concurrency * 5) else c0.MaxClients } := by
  rw [init_of_load_ok hload]
  exact initValidate_of_valid c0 hk hs (initLoad_bind_ne_nil hload) h4 h5 h6 h7 h8 h9
    (by omega) h11 h12 h13

/-- Witness of C15: with a secret and an `IMGPROXY_MAX_CLIENTS` that does not
parse, the load is valid and `init` starts. -/
theorem init_ok_of_valid_load_witness :
    initLoad envSecretAndClients (fsOf []) [] [] 4 =
      .ok { conf 4 with Key := [0], Salt := [171], Secret := goStr "s" } ∧
    init envSecretAndClients (fsOf []) [] [] 4 =
      .ok { conf 4 with MaxClients := 40, Key := [0], Salt := [171], Secret := goStr "s" } :=
  ⟨by decide,
    init_ok_of_valid_load envSecretAndClients (fsOf []) [] [] 4
      { conf 4 with Key := [0], Salt := [171], Secret := goStr "s" }
      (by decide) (by decide) (by decide) (by decide) (by decide) (by decide) (by decide)
      (by decide) (by decide) (by decide) (by decide) (by decide) (by decide)⟩

/-! ## C16: the frame of the integer reader -/

/-- The digit loop reads the digits in base ten, most significant first. -/
theorem parseDigits_eq (s : Bytes) (hs : ∀ c ∈ s, (digitVal c).isSome = true) :
    ∀ acc, parseDigits s acc =
      some (acc * 10 ^ s.length + Nat.ofDigits 10 (s.reverse.map (fun c => c - 48))) := by
  induction s with
  | nil => intro acc; simp [parseDigits]
  | cons c cs ih =>
    intro acc
    have hc := hs c (List.mem_cons_self c cs)
    have hd : digitVal c = some (c - 48) := by
      unfold digitVal at hc ⊢
      split
      · rfl
      · rename_i h; rw [if_neg h] at hc; cases hc
    simp only [parseDigits, hd]
    rw [ih (fun x hx => hs x (List.mem_cons_of_mem c hx))]
    simp only [List.reverse_cons, List.map_append, List.map_cons, List.map_nil,
      Nat.ofDigits_append, Nat.ofDigits_singleton, List.length_map, List.length_reverse,
      List.length_cons, Option.some.injEq]
    ring

/-- The digit loop fails on a byte that is no decimal digit. -/
theorem parseDigits_none_of_nondigit (s : Bytes) :
    ∀ acc, (∃ c ∈ s, digitVal c = none) → parseDigits s acc = none := by
  induction s with
  | nil => intro acc ⟨c, hc, _⟩; cases hc
  | cons x xs ih =>
    intro acc ⟨c, hc, hn⟩
    cases hx : digitVal x with
    | none => simp only [parseDigits, hx]
    | some d =>
      simp only [parseDigits, hx]
      rcases List.mem_cons.mp hc with rfl | hc
      · rw [hn] at hx; cases hx
      · exact ih _ ⟨c, hc, hn⟩

/-- What `strconv.Atoi` accepts is the decimal value of the string when it is
within the range of `int`, and nothing else. -/
theorem Atoi_eq_decimalValue (s : Bytes) :
    Atoi s =
      match decimalValue s with
      | some v => if minInt ≤ v ∧ v ≤ maxInt then some v else none
      | none => none := by
  unfold Atoi decimalValue minInt maxInt
  cases s with
  | nil => rfl
  | cons c rest =>
    simp only
    split_ifs with h1 h2
    · cases parseUnsigned rest with
      | none => rfl
      | some n =>
        simp only
        split_ifs <;> first | rfl | omega
    · cases parseUnsigned rest with
      | none => rfl
      | some n =>
        simp only
        split_ifs <;> first | rfl | omega
    · cases parseUnsigned (c :: rest) with
      | none => rfl
      | some n =>
        simp only
        split_ifs <;> first | rfl | omega

/-- The unsigned part fails on a byte that is no decimal digit. -/
theorem parseUnsigned_none_of_nondigit {s : Bytes} (h : ∃ c ∈ s, digitVal c = none) :
    parseUnsigned s = none := by
  unfold parseUnsigned
  split
  · rfl
  · exact parseDigits_none_of_nondigit _ 0 h

/-- A string with a byte after the first that is no decimal digit, or whose
first byte is neither a digit nor a sign, writes no decimal integer. -/
theorem decimalValue_none_of_nondigit (c : Nat) (rest : Bytes)
    (h : (∃ x ∈ rest, digitVal x = none) ∨ (digitVal c = none ∧ c ≠ 45 ∧ c ≠ 43)) :
    decimalValue (c :: rest) = none := by
  unfold decimalValue
  simp only
  rcases h with h | ⟨hd, h45, h43⟩
  · obtain ⟨x, hx, hn⟩ := h
    split_ifs
    · rw [parseUnsigned_none_of_nondigit ⟨x, hx, hn⟩]
    · rw [parseUnsigned_none_of_nondigit ⟨x, hx, hn⟩]
    · rw [parseUnsigned_none_of_nondigit ⟨x, List.mem_cons_of_mem c hx, hn⟩]
  · rw [if_neg h45, if_neg h43,
      parseUnsigned_none_of_nondigit ⟨c, List.mem_cons_self c rest, hd⟩]

/-- Two environments that agree on a variable give `hexEnvConfig` the same result. -/
theorem hexEnvConfig_congr (b : Bytes) {env env' : Env} {name : String}
    (h : env name = env' name) : hexEnvConfig b env name = hexEnvConfig b env' name := by
  unfold hexEnvConfig Getenv
  rw [h]

/-- C16. The frame of `intEnvConfig`: the target changes only when
`strconv.Atoi` accepts the variable's value, that is when the value writes a
decimal integer within the range of `int`, and then it becomes exactly that
integer; when the variable is unset, empty, no decimal integer or out of the
`int` range the target keeps its previous value. No other field is touched:
each field of the loaded configuration is determined by its own variable (and,
for the key and the salt, its file), whatever the other variables are. -/
theorem intEnvConfig_frame :
    (∀ (i : Int) (env : Env) (name : String) (v : Int),
      Atoi (Getenv env name) = some v → intEnvConfig i env name = v) ∧
    (∀ (i : Int) (env : Env) (name : String) (v : Int),
      decimalValue (Getenv env name) = some v → minInt ≤ v → v ≤ maxInt →
      intEnvConfig i env name = v) ∧
    (∀ (i : Int) (env : Env) (name : String), intEnvConfig i env name ≠ i →
      ∃ v, decimalValue (Getenv env name) = some v ∧ minInt ≤ v ∧ v ≤ maxInt ∧
        intEnvConfig i env name = v) ∧
    (∀ (i : Int) (env : Env) (name : String),
      (env name = none ∨ env name = some [] ∨ decimalValue (Getenv env name) = none ∨
        ∃ v, decimalValue (Getenv env name) = some v ∧ (v < minInt ∨ maxInt < v)) →
      intEnvConfig i env name = i) ∧
    (∀ (env env' : Env) (fs : FS) (keypath saltpath : Bytes) (numCPU : Int) (c c' : config),
      initLoad env fs keypath saltpath numCPU = .ok c →
      initLoad env' fs keypath saltpath numCPU = .ok c' →
      (env "IMGPROXY_BIND" = env' "IMGPROXY_BIND" → c.Bind = c'.Bind) ∧
      (env "IMGPROXY_READ_TIMEOUT" = env' "IMGPROXY_READ_TIMEOUT" →
        c.ReadTimeout = c'.ReadTimeout) ∧
      (env "IMGPROXY_WRITE_TIMEOUT" = env' "IMGPROXY_WRITE_TIMEOUT" →
        c.WriteTimeout = c'.WriteTimeout) ∧
      (env "IMGPROXY_DOWNLOAD_TIMEOUT" = env' "IMGPROXY_DOWNLOAD_TIMEOUT" →
        c.DownloadTimeout = c'.DownloadTimeout) ∧
      (env "IMGPROXY_CONCURRENCY" = env' "IMGPROXY_CONCURRENCY" →
        c.Concurrency = c'.Concurrency) ∧
      (env "IMGPROXY_MAX_CLIENTS" = env' "IMGPROXY_MAX_CLIENTS" →
        c.MaxClients = c'.MaxClients) ∧
      (env "IMGPROXY_TTL" = env' "IMGPROXY_TTL" → c.TTL = c'.TTL) ∧
      (env "IMGPROXY_MAX_SRC_DIMENSION" = env' "IMGPROXY_MAX_SRC_DIMENSION" →
        c.MaxSrcDimension = c'.MaxSrcDimension) ∧
      (env "IMGPROXY_QUALITY" = env' "IMGPROXY_QUALITY" → c.Quality = c'.Quality) ∧
      (env "IMGPROXY_GZIP_COMPRESSION" = env' "IMGPROXY_GZIP_COMPRESSION" →
        c.GZipCompression = c'.GZipCompression) ∧
      (env "IMGPROXY_KEY" = env' "IMGPROXY_KEY" → c.Key = c'.Key) ∧
      (env "IMGPROXY_SALT" = env' "IMGPROXY_SALT" → c.Salt = c'.Salt) ∧
      (env "IMGPROXY_SECRET" = env' "IMGPROXY_SECRET" → c.Secret = c'.Secret)) := by
  have hsome : ∀ (i : Int) (env : Env) (name : String) (v : Int),
      Atoi (Getenv env name) = some v → intEnvConfig i env name = v := by
    intro i env name v h
    unfold intEnvConfig
    rw [h]
  have hnone : ∀ (i : Int) (env : Env) (name : String),
      Atoi (Getenv env name) = none → intEnvConfig i env name = i := by
    intro i env name h
    unfold intEnvConfig
    rw [h]
  refine ⟨hsome, ?_, ?_, ?_, ?_⟩
  · intro i env name v hv h1 h2
    apply hsome
    rw [Atoi_eq_decimalValue, hv]
    simp only
    rw [if_pos ⟨h1, h2⟩]
  · intro i env name hne
    cases ha : Atoi (Getenv env name) with
    | none => exact absurd (hnone i env name ha) hne
    | some v =>
      have hr := Atoi_range ha
      refine ⟨v, ?_, hr.1, hr.2, hsome i env name v ha⟩
      rw [Atoi_eq_decimalValue] at ha
      cases hd : decimalValue (Getenv env name) with
      | none => rw [hd] at ha; cases ha
      | some w =>
        rw [hd] at ha
        simp only at ha
        split_ifs at ha
        injection ha with ha
        rw [ha]
  · intro i env name h
    apply hnone
    rcases h with h | h | h | ⟨v, hv, hr⟩
    · simp [Getenv, h, Atoi]
    · simp [Getenv, h, Atoi]
    · rw [Atoi_eq_decimalValue, h]
    · rw [Atoi_eq_decimalValue, hv]
      simp only
      rw [if_neg (by omega)]
  · intro env env' fs keypath saltpath numCPU c c' h h'
    obtain ⟨k1, s1, k2, s2, hk1, hs1, hk2, hs2, rfl⟩ := initLoad_ok h
    obtain ⟨k1', s1', k2', s2', hk1', hs1', hk2', hs2', rfl⟩ := initLoad_ok h'
    have hi : ∀ (i : Int) (name : String), env name = env' name →
        intEnvConfig i env name = intEnvConfig i env' name := by
      intro i name e
      unfold intEnvConfig Getenv
      rw [e]
    have hstr : ∀ (b : Bytes) (name : String), env name = env' name →
        strEnvConfig b env name = strEnvConfig b env' name := by
      intro b name e
      unfold strEnvConfig Getenv
      rw [e]
    refine ⟨hstr _ _, hi _ _, hi _ _, hi _ _, hi _ _, hi _ _, hi _ _, hi _ _, hi _ _, hi _ _,
      ?_, ?_, hstr _ _⟩
    · intro e
      rw [hexEnvConfig_congr [] e, hk1'] at hk1
      injection hk1 with hk1
      subst hk1
      rw [hk2'] at hk2
      injection hk2 with hk2
      exact hk2.symm
    · intro e
      rw [hexEnvConfig_congr [] e, hs1'] at hs1
      injection hs1 with hs1
      subst hs1
      rw [hs2'] at hs2
      injection hs2 with hs2
      exact hs2.symm

/-- Witness of C16: `IMGPROXY_QUALITY=abc` and a TTL beyond the `int` range
leave the targets at 80 and 3600, `IMGPROXY_QUALITY=90` sets the target to 90,
and changing the quality alone leaves the read timeout of the loaded
configurations equal. -/
theorem intEnvConfig_frame_witness :
    intEnvConfig 80 envQualityAbc "IMGPROXY_QUALITY" = 80 ∧
    intEnvConfig 3600 envTTLHuge "IMGPROXY_TTL" = 3600 ∧
    intEnvConfig 80 envTuned "IMGPROXY_QUALITY" = 90 ∧
    (confQuality101.ReadTimeout = ({ conf 4 with Key := [0], Salt := [171] } : config).ReadTimeout) :=
  ⟨intEnvConfig_frame.2.2.2.1 80 envQualityAbc "IMGPROXY_QUALITY" (Or.inr (Or.inr (Or.inl
      (by decide)))),
    intEnvConfig_frame.2.2.2.1 3600 envTTLHuge "IMGPROXY_TTL" (Or.inr (Or.inr (Or.inr
      ⟨99999999999999999999, by decide, Or.inr (by decide)⟩))),
    intEnvConfig_frame.1 80 envTuned "IMGPROXY_QUALITY" 90 (by decide),
    (intEnvConfig_frame.2.2.2.2 envQuality101 envKeySalt (fsOf []) [] [] 4 confQuality101
      { conf 4 with Key := [0], Salt := [171] } (by decide) (by decide)).2.1 (by decide)⟩

end Imgproxy
